import Mathlib

/-!
# Interpolation

A shallow embedding of the Go package `Interpolation` (`Interpolation.go`) and
proofs about it.

Modelling conventions

* The generic scalar kind `T` is modelled in exact arithmetic: the bracket search only
  compares scalars and is stated over any linear order; the routines that divide are
  stated over `ℚ`, where the widening `float64(·)` and the narrowing `T(·)` are the
  identity.
* A Go call either panics at run time (index out of range) or returns its tuple.
  The outer `Option` is the panic: `none` is a panic, `some r` is the returned tuple.
* A Go `error` is `Option String`: `none` is `nil`, `some msg` is `errors.New(msg)`.
* A Go `int` index is an `Int`; a slice is a `List`.
* The loop of `HalfLengthValueSearcher` has no iteration cap, so it is modelled with a
  fuel argument that bounds the number of iterations: `none` means that the loop was
  still running when the fuel ran out.
* `ZeroParabolicApproximation` computes in `T` itself. It is embedded twice: over `ℚ`, and
  for the fixed-width integer kinds over `Int`, every operation reduced modulo
  `2 ^ bits` and the division truncating toward zero and panicking on a zero divisor.
* The pointers handed to `Round` are addresses of a memory `Nat → ℚ`; a nil pointer is not
  represented.
-/

namespace Interpolation

/-! ## Definitions -/

/-- Go error value: `none` is `nil`, `some msg` is `errors.New(msg)`. -/
abbrev GoError := Option String

/-- Checked slice access `s[i]` for a Go `int` index; `none` is the run-time panic. -/
def goIndex {α : Type} (s : List α) (i : Int) : Option α :=
  if 0 ≤ i then s[i.toNat]? else none

/-- The `for i := 0; i < len(*arr)-1; i++` loop of `SearchNearestId`, entered at counter `i`.
Returns `(lower_id, higher_id, err)` as they stand when the loop is left: by `break` with the
ids set, or by the loop guard with the initial values `0, 0, errors.New("out of range")`. -/
def SearchNearestId.loop {α : Type} [LinearOrder α] (val : α) (arr : List α) (i : Nat) :
    Option (Int × Int × GoError) :=
  if (i : Int) < (arr.length : Int) - 1 then do
    let a ← goIndex arr i
    -- `(*arr)[i] < val && (*arr)[i+1] > val`, with the short circuit of `&&`
    let bracket ← if a < val then (do
                      let b ← goIndex arr ((i : Int) + 1)
                      pure (decide (b > val)))
                  else pure false
    if bracket then
      pure ((i : Int), (i : Int) + 1, none)
    else if a = val then
      pure ((i : Int), (i : Int), none)
    else
      SearchNearestId.loop val arr (i + 1)
  else
    pure (0, 0, some "out of range")
termination_by arr.length - 1 - i
decreasing_by omega

/-- Go `SearchNearestId(val, arr)`: returns `(lower_id, higher_id, err)`. -/
def SearchNearestId {α : Type} [LinearOrder α] (val : α) (arr : List α) :
    Option (Int × Int × GoError) := do
  let (lower_id, higher_id, err) ← SearchNearestId.loop val arr 0
  let last ← goIndex arr ((arr.length : Int) - 1)
  if last = val then
    pure ((arr.length : Int) - 1, (arr.length : Int) - 1, none)
  else
    pure (lower_id, higher_id, err)

/-- Go `Linear(target_x, x1, x2, val1, val2)` in exact arithmetic. -/
def Linear (target_x x1 x2 val1 val2 : ℚ) : ℚ :=
  if x1 = x2 then
    val1
  else
    -((x2 * val1 - x1 * val2) / (x1 - x2)) - ((-val1 + val2) * target_x) / (x1 - x2)

/-- Go `Linear2(targetX, arrayOfX, ValueArray)`. The source assigns the first result of
`SearchNearestId` (its `lower_id`) to `higherXid` and the second (its `higher_id`) to
`lowerXid`; the embedding keeps that order. -/
def Linear2 (targetX : ℚ) (arrayOfX ValueArray : List ℚ) : Option (ℚ × GoError) :=
  if arrayOfX.length ≠ ValueArray.length then
    some (0, some "bad array sizes")
  else
    match SearchNearestId targetX arrayOfX with
    | none => none
    | some (higherXid, lowerXid, err) =>
      if err ≠ none then
        some (0, err)
      else do
        let x1 ← goIndex arrayOfX lowerXid
        let x2 ← goIndex arrayOfX higherXid
        let val1 ← goIndex ValueArray lowerXid
        let val2 ← goIndex ValueArray higherXid
        pure (Linear targetX x1 x2 val1 val2, none)

/-- Go `BiLinear(targetX, x1, x2, targetY, y1, y2, valX1Y1, valX1Y2, valX2Y1, valX2Y2)`. -/
def BiLinear (targetX x1 x2 targetY y1 y2 valX1Y1 valX1Y2 valX2Y1 valX2Y2 : ℚ) : ℚ :=
  if x1 = x2 then
    if y1 = y2 then
      valX1Y1
    else
      Linear targetY y1 y2 valX1Y1 valX1Y2
  else if y1 = y2 then
    Linear targetX x1 x2 valX1Y1 valX2Y1
  else
    Linear targetX x1 x2 (Linear targetY y1 y2 valX1Y1 valX1Y2)
      (Linear targetY y1 y2 valX2Y1 valX2Y2)

/-- The last statement of `BiLinear2`: reads the anchors and the four corners, in the order
of the source, and calls `BiLinear`. -/
def BiLinear2.corners (targetX targetY : ℚ) (arrayOfX arrayOfY : List ℚ)
    (ValueArray : List (List ℚ)) (higherXid lowerXid higherYid lowerYid : Int) :
    Option (ℚ × GoError) := do
  let x1 ← goIndex arrayOfX lowerXid
  let x2 ← goIndex arrayOfX higherXid
  let y1 ← goIndex arrayOfY lowerYid
  let y2 ← goIndex arrayOfY higherYid
  let rowLower ← goIndex ValueArray lowerXid
  let valX1Y1 ← goIndex rowLower lowerYid
  let valX1Y2 ← goIndex rowLower higherYid
  let rowHigher ← goIndex ValueArray higherXid
  let valX2Y1 ← goIndex rowHigher lowerYid
  let valX2Y2 ← goIndex rowHigher higherYid
  pure (BiLinear targetX x1 x2 targetY y1 y2 valX1Y1 valX1Y2 valX2Y1 valX2Y2, none)

/-- Go `BiLinear2(targetX, targetY, arrayOfX, arrayOfY, ValueArray)`. As in `Linear2`, the
first result of `SearchNearestId` goes to the variable named `higher…id` and the second to
the one named `lower…id`. -/
def BiLinear2 (targetX targetY : ℚ) (arrayOfX arrayOfY : List ℚ)
    (ValueArray : List (List ℚ)) : Option (ℚ × GoError) :=
  if arrayOfX.length ≠ ValueArray.length then
    some (0, some "bad array sizes")
  else
    match SearchNearestId targetX arrayOfX with
    | none => none
    | some (higherXid, lowerXid, err) =>
      if err ≠ none then
        some (0, err)
      else
        match goIndex ValueArray higherXid with
        | none => none
        | some rowHigher =>
          if arrayOfY.length ≠ rowHigher.length then
            some (0, some "bad array sizes")
          else
            match goIndex ValueArray lowerXid with
            | none => none
            | some rowLower =>
              if arrayOfY.length ≠ rowLower.length then
                some (0, some "bad array sizes")
              else
                match SearchNearestId targetY arrayOfY with
                | none => none
                | some (higherYid, lowerYid, err) =>
                  if err ≠ none then
                    some (0, err)
                  else
                    BiLinear2.corners targetX targetY arrayOfX arrayOfY ValueArray
                      higherXid lowerXid higherYid lowerYid

/-- The four loop variables of `HalfLengthValueSearcher`. -/
structure Bracket where
  x_lower : ℚ
  x_higher : ℚ
  y_lower : ℚ
  y_higher : ℚ
  deriving DecidableEq

/-- One execution of the loop body of `HalfLengthValueSearcher`. -/
def HalfLengthValueSearcher.step (Function : ℚ → ℚ) (TargetY : ℚ) (s : Bracket) : Bracket :=
  let x_mid := (s.x_higher + s.x_lower) / 2
  let y_mid := Function x_mid
  if y_mid > TargetY then
    { s with x_higher := x_mid, y_higher := y_mid }
  else
    { s with x_lower := x_mid, y_lower := y_mid }

/-- The `for math.Abs(float64(y_higher-y_lower)) > float64(Accuracy)` loop, run for at most
`fuel` iterations: `some s` is the state in which the loop guard fails, `none` means the
guard still holds after `fuel` iterations. -/
def HalfLengthValueSearcher.loop (Function : ℚ → ℚ) (TargetY Accuracy : ℚ) :
    Nat → Bracket → Option Bracket
  | fuel, s =>
    if |s.y_higher - s.y_lower| > Accuracy then
      match fuel with
      | 0 => none
      | n + 1 => HalfLengthValueSearcher.loop Function TargetY Accuracy n
          (HalfLengthValueSearcher.step Function TargetY s)
    else
      some s

/-- The loop state of `HalfLengthValueSearcher` on entry to the loop. -/
def HalfLengthValueSearcher.init (Function : ℚ → ℚ) (Xmin Xmax : ℚ) : Bracket :=
  { x_lower := Xmin, x_higher := Xmax, y_lower := Function Xmin, y_higher := Function Xmax }

/-- Go `HalfLengthValueSearcher(Function, Xmin, Xmax, TargetY, Accuracy)` with the loop
bounded by `fuel`; `none` means the loop did not stop within `fuel` iterations. -/
def HalfLengthValueSearcher (fuel : Nat) (Function : ℚ → ℚ) (Xmin Xmax TargetY Accuracy : ℚ) :
    Option (ℚ × GoError) :=
  let x_lower := Xmin
  let x_higher := Xmax
  let y_lower := Function x_lower
  let y_higher := Function x_higher
  if (TargetY > y_higher ∧ TargetY > y_lower) ∨ (TargetY < y_higher ∧ TargetY < y_lower) then
    some (0, some "out of range")
  else
    match HalfLengthValueSearcher.loop Function TargetY Accuracy fuel
        (HalfLengthValueSearcher.init Function Xmin Xmax) with
    | none => none
    | some s => some ((s.x_higher + s.x_lower) / 2, none)

/-- A division of the exact-arithmetic model: `none` when the divisor is zero, so that a
result `some _` records that no division by zero was performed. -/
def checkedDiv (a b : ℚ) : Option ℚ :=
  if b = 0 then none else some (a / b)

/-- Go `ZeroParabolicApproximation(x1, x2, val1, val2, target_x)` in exact arithmetic. The
outer `none` is a division by zero; the error text is the one of the source. -/
def ZeroParabolicApproximation (x1 x2 val1 val2 target_x : ℚ) : Option (ℚ × GoError) :=
  if x1 = 0 ∨ x2 = 0 ∨ x1 = x2 then
    some (0, some "divide dy zero")
  else do
    let qa ← checkedDiv (-x2 * val1 + x1 * val2) (x1 * (x1 - x2) * x2)
    let a := -qa
    let qb ← checkedDiv (x2 * x2 * val1 - x1 * x1 * val2) (x1 * (x1 - x2) * x2)
    let b := -qb
    pure (a * target_x * target_x + b * target_x, none)

/-- A fixed-width integer kind of Go: `int8` is `⟨true, 8⟩`, `uint16` is `⟨false, 16⟩`. -/
structure IntKind where
  signed : Bool
  bits : Nat
  deriving DecidableEq

/-- The value an integer kind stores for the mathematical result `z` of an operation:
reduction modulo `2 ^ bits`, into the signed range for a signed kind. -/
def IntKind.wrap (k : IntKind) (z : Int) : Int :=
  if k.signed then (z + 2 ^ (k.bits - 1)) % 2 ^ k.bits - 2 ^ (k.bits - 1)
  else z % 2 ^ k.bits

/-- The value `z` is representable in the kind. -/
def IntKind.InRange (k : IntKind) (z : Int) : Prop :=
  if k.signed then -(2 ^ (k.bits - 1)) ≤ z ∧ z < 2 ^ (k.bits - 1)
  else 0 ≤ z ∧ z < 2 ^ k.bits

instance IntKind.decidableInRange (k : IntKind) (z : Int) : Decidable (k.InRange z) := by
  unfold IntKind.InRange
  infer_instance

/-- Go integer division `a / b` in the kind `k`: a zero divisor is the run-time panic
`integer divide by zero` (`none`), otherwise the quotient is truncated toward zero. -/
def IntKind.div (k : IntKind) (a b : Int) : Option Int :=
  if b = 0 then none else some (k.wrap (Int.tdiv a b))

/-- Go `ZeroParabolicApproximation[T]` for an integer kind `T = k`: every operation is the
one of `T`, the divisions included. The outer `none` is the run-time panic. -/
def ZeroParabolicApproximationInt (k : IntKind) (x1 x2 val1 val2 target_x : Int) :
    Option (Int × GoError) :=
  if x1 = 0 ∨ x2 = 0 ∨ x1 = x2 then
    some (0, some "divide dy zero")
  else do
    let qa ← k.div (k.wrap (k.wrap (k.wrap (-x2) * val1) + k.wrap (x1 * val2)))
      (k.wrap (k.wrap (x1 * k.wrap (x1 - x2)) * x2))
    let a := k.wrap (-qa)
    let qb ← k.div (k.wrap (k.wrap (k.wrap (x2 * x2) * val1) - k.wrap (k.wrap (x1 * x1) * val2)))
      (k.wrap (k.wrap (x1 * k.wrap (x1 - x2)) * x2))
    let b := k.wrap (-qb)
    pure (k.wrap (k.wrap (k.wrap (a * target_x) * target_x) + k.wrap (b * target_x)), none)

/-- Go `math.Round` in exact arithmetic: the nearest integer, halves away from zero. -/
def mathRound (x : ℚ) : ℚ :=
  if 0 ≤ x then ((⌊x + 1 / 2⌋ : Int) : ℚ) else -((⌊-x + 1 / 2⌋ : Int) : ℚ)

/-- Go `math.Pow10(n)` in exact arithmetic. -/
def Pow10 (n : Int) : ℚ :=
  (10 : ℚ) ^ n

/-- The loop of `Round` over the remaining pointers. A pointer is the address of a cell of
the memory `mem`; `*x[i] = …` updates that cell. -/
def Round.loop (k : ℚ) : List Nat → (Nat → ℚ) → (Nat → ℚ)
  | [], mem => mem
  | p :: rest, mem => Round.loop k rest (Function.update mem p (mathRound (mem p * k) / k))

/-- Go `Round(DecimalPlaces, x...)`: the memory after the call. -/
def Round (DecimalPlaces : Int) (x : List Nat) (mem : Nat → ℚ) : Nat → ℚ :=
  Round.loop (Pow10 DecimalPlaces) x mem

/-! ### Specification vocabulary -/

/-- The sequence is ascending, equal neighbours allowed. -/
def Ascending {α : Type} [LinearOrder α] (arr : List α) : Prop :=
  arr.Pairwise (· ≤ ·)

/-- The sequence is strictly ascending. -/
def StrictlyAscending {α : Type} [LinearOrder α] (arr : List α) : Prop :=
  arr.Pairwise (· < ·)

/-- The pair `(k, k+1)` brackets `val` strictly: `arr[k] < val < arr[k+1]`. -/
def BracketAt {α : Type} [LinearOrder α] (val : α) (arr : List α) (k : Nat) : Prop :=
  ∃ a b, arr[k]? = some a ∧ arr[k + 1]? = some b ∧ a < val ∧ val < b

/-- The loop of `SearchNearestId` sees an exact hit at `k`: `k` is not the last index and
`arr[k] == val`. -/
def ExactAt {α : Type} [LinearOrder α] (val : α) (arr : List α) (k : Nat) : Prop :=
  k + 1 < arr.length ∧ arr[k]? = some val

/-- The standard bilinear form on the cell `[x1, x2] × [y1, y2]` with corner values
`v11` at `(x1, y1)`, `v12` at `(x1, y2)`, `v21` at `(x2, y1)` and `v22` at `(x2, y2)`. -/
def bilinearForm (x1 x2 y1 y2 v11 v12 v21 v22 x y : ℚ) : ℚ :=
  (v11 * (x2 - x) * (y2 - y) + v21 * (x - x1) * (y2 - y) + v12 * (x2 - x) * (y - y1)
    + v22 * (x - x1) * (y - y1)) / ((x2 - x1) * (y2 - y1))

/-- The loop invariant of `HalfLengthValueSearcher` for a non-decreasing function. -/
def HalfLengthValueSearcher.Inv (Function : ℚ → ℚ) (Xmin Xmax TargetY : ℚ) (s : Bracket) :
    Prop :=
  Xmin ≤ s.x_lower ∧ s.x_lower ≤ s.x_higher ∧ s.x_higher ≤ Xmax ∧
    s.y_lower = Function s.x_lower ∧ s.y_higher = Function s.x_higher ∧
    s.y_lower ≤ TargetY ∧ TargetY ≤ s.y_higher

/-! ## Theorems -/

/-! ### Slice access -/

theorem goIndex_natCast {α : Type} (s : List α) (k : Nat) : goIndex s (k : Int) = s[k]? := by
  simp [goIndex]

theorem goIndex_natCast_succ {α : Type} (s : List α) (k : Nat) :
    goIndex s ((k : Int) + 1) = s[k + 1]? := by
  have h : ((k : Int) + 1) = ((k + 1 : Nat) : Int) := by push_cast; rfl
  rw [h, goIndex_natCast]

theorem goIndex_last {α : Type} (s : List α) (h : 0 < s.length) :
    goIndex s ((s.length : Int) - 1) = s[s.length - 1]? := by
  have h1 : ((s.length : Int) - 1) = ((s.length - 1 : Nat) : Int) := by omega
  rw [h1, goIndex_natCast]

theorem goIndex_nil {α : Type} (i : Int) : goIndex ([] : List α) i = none := by
  simp [goIndex]

theorem ascending_le {α : Type} [LinearOrder α] {arr : List α} (h : Ascending arr)
    {i j : Nat} {a b : α} (hij : i ≤ j) (ha : arr[i]? = some a) (hb : arr[j]? = some b) :
    a ≤ b := by
  rcases Nat.eq_or_lt_of_le hij with heq | hlt
  · subst heq
    rw [ha] at hb
    exact le_of_eq (Option.some.inj hb)
  · obtain ⟨hi, rfl⟩ := List.getElem?_eq_some.mp ha
    obtain ⟨hj, rfl⟩ := List.getElem?_eq_some.mp hb
    exact (List.pairwise_iff_getElem.mp h) i j hi hj hlt

theorem strictlyAscending_lt {α : Type} [LinearOrder α] {arr : List α}
    (h : StrictlyAscending arr) {i j : Nat} {a b : α} (hij : i < j)
    (ha : arr[i]? = some a) (hb : arr[j]? = some b) : a < b := by
  obtain ⟨hi, rfl⟩ := List.getElem?_eq_some.mp ha
  obtain ⟨hj, rfl⟩ := List.getElem?_eq_some.mp hb
  exact (List.pairwise_iff_getElem.mp h) i j hi hj hij

theorem StrictlyAscending.ascending {α : Type} [LinearOrder α] {arr : List α}
    (h : StrictlyAscending arr) : Ascending arr :=
  List.Pairwise.imp (fun hab => le_of_lt hab) h

/-! ### The scan loop of `SearchNearestId` -/

theorem SearchNearestId.loop_exit {α : Type} [LinearOrder α] (val : α) (arr : List α) (i : Nat)
    (h : arr.length ≤ i + 1) :
    SearchNearestId.loop val arr i = some (0, 0, some "out of range") := by
  rw [SearchNearestId.loop]
  have hg : ¬ ((i : Int) < (arr.length : Int) - 1) := by omega
  simp [hg]

theorem SearchNearestId.loop_step {α : Type} [LinearOrder α] (val : α) (arr : List α) (i : Nat)
    (a b : α) (ha : arr[i]? = some a) (hb : arr[i + 1]? = some b) :
    SearchNearestId.loop val arr i =
      if a < val ∧ val < b then some ((i : Int), (i : Int) + 1, none)
      else if a = val then some ((i : Int), (i : Int), none)
      else SearchNearestId.loop val arr (i + 1) := by
  have hlen : i + 1 < arr.length := (List.getElem?_eq_some.mp hb).1
  have hg : (i : Int) < (arr.length : Int) - 1 := by omega
  rw [SearchNearestId.loop]
  rw [if_pos hg, goIndex_natCast, goIndex_natCast_succ, ha, hb]
  by_cases h1 : a < val
  · by_cases h2 : val < b
    · simp [h1, h2]
    · simp [h1, h2]
  · simp [h1]

/-- Full description of what the scan loop returns when entered at `i`: either no position
from `i` on is a hit and the initial `(0, 0, "out of range")` is returned, or the first hit
`k` is returned, as the bracket `(k, k+1)` or as the exact hit `(k, k)`. -/
theorem SearchNearestId.loop_spec {α : Type} [LinearOrder α] (val : α) (arr : List α) :
    ∀ (n i : Nat), arr.length - i = n →
      (SearchNearestId.loop val arr i = some (0, 0, some "out of range") ∧
        ∀ k, i ≤ k → ¬ BracketAt val arr k ∧ ¬ ExactAt val arr k) ∨
      (∃ k, i ≤ k ∧ k + 1 < arr.length ∧
        (∀ j, i ≤ j → j < k → ¬ BracketAt val arr j ∧ ¬ ExactAt val arr j) ∧
        ((BracketAt val arr k ∧
            SearchNearestId.loop val arr i = some ((k : Int), (k : Int) + 1, none)) ∨
         (¬ BracketAt val arr k ∧ ExactAt val arr k ∧
            SearchNearestId.loop val arr i = some ((k : Int), (k : Int), none)))) := by
  intro n
  induction n with
  | zero =>
    intro i hn
    left
    refine ⟨SearchNearestId.loop_exit val arr i (by omega), ?_⟩
    intro k hk
    constructor
    · rintro ⟨a, b, _, hb, _⟩
      have := (List.getElem?_eq_some.mp hb).1
      omega
    · rintro ⟨hlt, _⟩
      omega
  | succ n ih =>
    intro i hn
    by_cases hlen : i + 1 < arr.length
    · have hi : i < arr.length := by omega
      have ha : arr[i]? = some arr[i] := List.getElem?_eq_getElem hi
      have hb : arr[i + 1]? = some arr[i + 1] := List.getElem?_eq_getElem hlen
      rw [SearchNearestId.loop_step val arr i _ _ ha hb]
      by_cases hbr : arr[i] < val ∧ val < arr[i + 1]
      · right
        refine ⟨i, le_refl i, hlen, fun j h1 h2 => absurd h2 (by omega), ?_⟩
        left
        exact ⟨⟨_, _, ha, hb, hbr.1, hbr.2⟩, by rw [if_pos hbr]⟩
      · have hnb : ¬ BracketAt val arr i := by
          rintro ⟨a, b, ha1, hb1, h1, h2⟩
          rw [ha] at ha1
          rw [hb] at hb1
          cases ha1
          cases hb1
          exact hbr ⟨h1, h2⟩
        by_cases heq : arr[i] = val
        · right
          refine ⟨i, le_refl i, hlen, fun j h1 h2 => absurd h2 (by omega), ?_⟩
          right
          refine ⟨hnb, ⟨hlen, by rw [ha, heq]⟩, by rw [if_neg hbr, if_pos heq]⟩
        · have hne : ¬ ExactAt val arr i := by
            rintro ⟨_, h1⟩
            rw [ha] at h1
            exact heq (Option.some.inj h1)
          rw [if_neg hbr, if_neg heq]
          rcases ih (i + 1) (by omega) with ⟨hres, hno⟩ | ⟨k, hk, hklen, hno, hres⟩
          · left
            refine ⟨hres, fun k hk => ?_⟩
            rcases Nat.eq_or_lt_of_le hk with rfl | hlt
            · exact ⟨hnb, hne⟩
            · exact hno k hlt
          · right
            refine ⟨k, by omega, hklen, fun j h1 h2 => ?_, hres⟩
            rcases Nat.eq_or_lt_of_le h1 with rfl | hlt
            · exact ⟨hnb, hne⟩
            · exact hno j hlt h2
    · left
      refine ⟨SearchNearestId.loop_exit val arr i (by omega), ?_⟩
      intro k hk
      constructor
      · rintro ⟨a, b, _, hb, _⟩
        have := (List.getElem?_eq_some.mp hb).1
        omega
      · rintro ⟨hlt, _⟩
        omega

/-! ### `SearchNearestId` -/

theorem SearchNearestId.loop_isSome {α : Type} [LinearOrder α] (val : α) (arr : List α)
    (i : Nat) : ∃ r, SearchNearestId.loop val arr i = some r := by
  rcases SearchNearestId.loop_spec val arr _ i rfl with ⟨h, _⟩ | ⟨k, _, _, _, h | h⟩
  · exact ⟨_, h⟩
  · exact ⟨_, h.2⟩
  · exact ⟨_, h.2.2⟩

/-- The statement after the loop: the last element is compared with `val` and, when equal,
replaces whatever the loop has left in `(lower_id, higher_id, err)`. -/
theorem SearchNearestId_eq {α : Type} [LinearOrder α] (val : α) (arr : List α)
    (r : Int × Int × GoError) (last : α)
    (hr : SearchNearestId.loop val arr 0 = some r)
    (hlast : arr[arr.length - 1]? = some last) :
    SearchNearestId val arr =
      if last = val then some ((arr.length : Int) - 1, (arr.length : Int) - 1, none)
      else some r := by
  have hpos : 0 < arr.length := by
    have := (List.getElem?_eq_some.mp hlast).1
    omega
  obtain ⟨lo, hi, err⟩ := r
  unfold SearchNearestId
  rw [hr, goIndex_last arr hpos, hlast]
  by_cases h : last = val
  · simp [h]
  · simp [h]

theorem last_cast {α : Type} (arr : List α) (h : 0 < arr.length) :
    (arr.length : Int) - 1 = ((arr.length - 1 : Nat) : Int) := by
  omega

/-- Where the loop finds no hit from position `0` on and the first element is at most `val`,
every element is at most `val`. -/
theorem le_of_no_hit {α : Type} [LinearOrder α] (val : α) (arr : List α) (first : α)
    (hfirst : arr[0]? = some first) (h1 : first ≤ val)
    (hno : ∀ k, 0 ≤ k → ¬ BracketAt val arr k ∧ ¬ ExactAt val arr k) :
    ∀ (k : Nat) (a : α), arr[k]? = some a → a ≤ val := by
  intro k
  induction k with
  | zero =>
    intro a ha
    rw [hfirst] at ha
    cases ha
    exact h1
  | succ k ih =>
    intro b hb
    have hlen : k + 1 < arr.length := (List.getElem?_eq_some.mp hb).1
    have ha : arr[k]? = some arr[k] := List.getElem?_eq_getElem (by omega)
    have hle := ih _ ha
    obtain ⟨hnb, hne⟩ := hno k (Nat.zero_le k)
    have hlt : arr[k] < val := by
      rcases lt_or_eq_of_le hle with h | h
      · exact h
      · exact absurd ⟨hlen, by rw [ha, h]⟩ hne
    by_contra hcon
    exact hnb ⟨_, _, ha, hb, hlt, lt_of_not_le hcon⟩

/-- A target within `[arr[0], arr[last]]` is always bracketed; the order of the elements in
between plays no part. -/
theorem SearchNearestId_in_range {α : Type} [LinearOrder α] (val : α) (arr : List α)
    (first last : α) (hfirst : arr[0]? = some first)
    (hlast : arr[arr.length - 1]? = some last) (h1 : first ≤ val) (h2 : val ≤ last) :
    ∃ lower higher : Nat,
      SearchNearestId val arr = some ((lower : Int), (higher : Int), none) ∧
      lower ≤ higher ∧ higher ≤ lower + 1 ∧ higher < arr.length ∧
      ∃ a b, arr[lower]? = some a ∧ arr[higher]? = some b ∧ a ≤ val ∧ val ≤ b ∧
        (lower = higher → a = val) := by
  have hpos : 0 < arr.length := by
    have := (List.getElem?_eq_some.mp hlast).1
    omega
  have hfinal : last = val →
      ∃ lower higher : Nat,
        some ((arr.length : Int) - 1, (arr.length : Int) - 1, (none : GoError))
          = some ((lower : Int), (higher : Int), none) ∧
        lower ≤ higher ∧ higher ≤ lower + 1 ∧ higher < arr.length ∧
        ∃ a b, arr[lower]? = some a ∧ arr[higher]? = some b ∧ a ≤ val ∧ val ≤ b ∧
          (lower = higher → a = val) := by
    intro h
    refine ⟨arr.length - 1, arr.length - 1, by rw [last_cast arr hpos], le_refl _,
      Nat.le_succ _, by omega, last, last, hlast, hlast, le_of_eq h, le_of_eq h.symm,
      fun _ => h⟩
  rcases SearchNearestId.loop_spec val arr _ 0 rfl with
    ⟨hres, hno⟩ | ⟨k, _, hklen, _, ⟨hbr, hres⟩ | ⟨_, hex, hres⟩⟩
  · have hle := le_of_no_hit val arr first hfirst h1 hno _ _ hlast
    rw [SearchNearestId_eq val arr _ last hres hlast, if_pos (le_antisymm hle h2)]
    exact hfinal (le_antisymm hle h2)
  · rw [SearchNearestId_eq val arr _ last hres hlast]
    by_cases h : last = val
    · rw [if_pos h]
      exact hfinal h
    · rw [if_neg h]
      obtain ⟨a, b, ha, hb, hlt1, hlt2⟩ := hbr
      refine ⟨k, k + 1, by push_cast; rfl, Nat.le_succ k, le_refl _, hklen, a, b, ha, hb,
        le_of_lt hlt1, le_of_lt hlt2, fun hk => absurd hk (by omega)⟩
  · rw [SearchNearestId_eq val arr _ last hres hlast]
    by_cases h : last = val
    · rw [if_pos h]
      exact hfinal h
    · rw [if_neg h]
      exact ⟨k, k, rfl, le_refl k, Nat.le_succ k, by omega, val, val, hex.2, hex.2,
        le_refl _, le_refl _, fun _ => rfl⟩

/-- A target strictly between two neighbours of an ascending sequence: the search returns
that pair. -/
theorem SearchNearestId_interior {α : Type} [LinearOrder α] (val : α) (arr : List α)
    (hasc : Ascending arr) (i : Nat) (a b : α) (ha : arr[i]? = some a)
    (hb : arr[i + 1]? = some b) (h1 : a < val) (h2 : val < b) :
    SearchNearestId val arr = some ((i : Int), (i : Int) + 1, none) := by
  have hlen : i + 1 < arr.length := (List.getElem?_eq_some.mp hb).1
  have hl : arr[arr.length - 1]? = some arr[arr.length - 1] :=
    List.getElem?_eq_getElem (by omega)
  have hlastne : ¬ arr[arr.length - 1] = val := by
    have := ascending_le hasc (by omega : i + 1 ≤ arr.length - 1) hb hl
    intro h
    rw [h] at this
    exact absurd h2 (not_lt_of_le this)
  have hbi : BracketAt val arr i := ⟨a, b, ha, hb, h1, h2⟩
  have key : ∀ k, k < i → ¬ BracketAt val arr k ∧ ¬ ExactAt val arr k := by
    intro k hk
    constructor
    · rintro ⟨c, d, _, hd, _, hlt⟩
      have := ascending_le hasc (by omega : k + 1 ≤ i) hd ha
      exact absurd (lt_of_lt_of_le hlt this) (not_lt_of_gt h1)
    · rintro ⟨_, hc⟩
      have := ascending_le hasc (le_of_lt hk) hc ha
      exact absurd h1 (not_lt_of_le this)
  rcases SearchNearestId.loop_spec val arr _ 0 rfl with
    ⟨_, hno⟩ | ⟨k, _, _, hfirst, hres⟩
  · exact absurd hbi (hno i (Nat.zero_le i)).1
  · have hki : k = i := by
      rcases Nat.lt_trichotomy k i with h | h | h
      · rcases hres with ⟨hbr, _⟩ | ⟨_, hex, _⟩
        · exact absurd hbr (key k h).1
        · exact absurd hex (key k h).2
      · exact h
      · exact absurd hbi (hfirst i (Nat.zero_le i) h).1
    subst hki
    rcases hres with ⟨_, hres⟩ | ⟨hnb, _, _⟩
    · rw [SearchNearestId_eq val arr _ _ hres hl, if_neg hlastne]
    · exact absurd hbi hnb

/-- A target equal to an element of an ascending sequence, `i` being the first position
that holds it: the search returns the last index when the last element equals the target,
and `i` otherwise. -/
theorem SearchNearestId_exact {α : Type} [LinearOrder α] (val : α) (arr : List α)
    (hasc : Ascending arr) (i : Nat) (hi : arr[i]? = some val)
    (hfirst : ∀ j, j < i → arr[j]? ≠ some val) (last : α)
    (hlast : arr[arr.length - 1]? = some last) :
    SearchNearestId val arr =
      if last = val then some ((arr.length : Int) - 1, (arr.length : Int) - 1, none)
      else some ((i : Int), (i : Int), none) := by
  have hilen : i < arr.length := (List.getElem?_eq_some.mp hi).1
  by_cases hl : last = val
  · obtain ⟨r, hr⟩ := SearchNearestId.loop_isSome val arr 0
    rw [SearchNearestId_eq val arr r last hr hlast, if_pos hl, if_pos hl]
  · have hlen : i + 1 < arr.length := by
      by_contra hcon
      have hieq : i = arr.length - 1 := by omega
      rw [hieq, hlast] at hi
      exact hl (Option.some.inj hi)
    have hex : ExactAt val arr i := ⟨hlen, hi⟩
    have key : ∀ k, k < i → ¬ BracketAt val arr k ∧ ¬ ExactAt val arr k := by
      intro k hk
      constructor
      · rintro ⟨c, d, _, hd, _, hlt⟩
        have := ascending_le hasc (by omega : k + 1 ≤ i) hd hi
        exact absurd hlt (not_lt_of_le this)
      · rintro ⟨_, hc⟩
        exact hfirst k hk hc
    have hnbi : ¬ BracketAt val arr i := by
      rintro ⟨c, d, hc, _, hlt, _⟩
      rw [hi] at hc
      cases hc
      exact lt_irrefl _ hlt
    rcases SearchNearestId.loop_spec val arr _ 0 rfl with
      ⟨_, hno⟩ | ⟨k, _, _, hfst, hres⟩
    · exact absurd hex (hno i (Nat.zero_le i)).2
    · have hki : k = i := by
        rcases Nat.lt_trichotomy k i with h | h | h
        · rcases hres with ⟨hbr, _⟩ | ⟨_, hex2, _⟩
          · exact absurd hbr (key k h).1
          · exact absurd hex2 (key k h).2
        · exact h
        · exact absurd hex (hfst i (Nat.zero_le i) h).2
      subst hki
      rcases hres with ⟨hbr, _⟩ | ⟨_, _, hres⟩
      · exact absurd hbr hnbi
      · rw [SearchNearestId_eq val arr _ last hres hlast, if_neg hl]

/-- A target below the first or above the last element of an ascending sequence: the search
leaves the initial `(0, 0, "out of range")`. -/
theorem SearchNearestId_outside {α : Type} [LinearOrder α] (val : α) (arr : List α)
    (hasc : Ascending arr) (first last : α) (hfirst : arr[0]? = some first)
    (hlast : arr[arr.length - 1]? = some last) (h : val < first ∨ last < val) :
    SearchNearestId val arr = some (0, 0, some "out of range") := by
  have hout : ∀ (k : Nat) (c : α), arr[k]? = some c → val < c ∨ c < val := by
    intro k c hc
    have hk : k < arr.length := (List.getElem?_eq_some.mp hc).1
    rcases h with h | h
    · left
      exact lt_of_lt_of_le h (ascending_le hasc (Nat.zero_le k) hfirst hc)
    · right
      exact lt_of_le_of_lt (ascending_le hasc (by omega : k ≤ arr.length - 1) hc hlast) h
  have hside : ∀ (k : Nat) (c : α) (j : Nat) (d : α),
      arr[k]? = some c → arr[j]? = some d → c < val → val < d → False := by
    intro k c j d hc hd h1 h2
    have hk : k < arr.length := (List.getElem?_eq_some.mp hc).1
    have hj : j < arr.length := (List.getElem?_eq_some.mp hd).1
    rcases h with h | h
    · have := ascending_le hasc (Nat.zero_le k) hfirst hc
      exact absurd (lt_of_lt_of_le h this) (not_lt_of_gt h1)
    · have := ascending_le hasc (by omega : j ≤ arr.length - 1) hd hlast
      exact absurd (lt_of_le_of_lt this h) (not_lt_of_gt h2)
  have hlastne : ¬ last = val := by
    intro heq
    rcases hout _ _ hlast with h3 | h3
    · exact absurd heq (ne_of_gt h3)
    · exact absurd heq (ne_of_lt h3)
  rcases SearchNearestId.loop_spec val arr _ 0 rfl with
    ⟨hres, _⟩ | ⟨k, _, _, _, ⟨hbr, _⟩ | ⟨_, hex, _⟩⟩
  · rw [SearchNearestId_eq val arr _ last hres hlast, if_neg hlastne]
  · obtain ⟨c, d, hc, hd, h1, h2⟩ := hbr
    exact absurd (hside _ _ _ _ hc hd h1 h2) id
  · rcases hout _ _ hex.2 with h3 | h3
    · exact absurd h3 (lt_irrefl _)
    · exact absurd h3 (lt_irrefl _)

/-! ### `Linear` and `Linear2` -/

theorem Linear_eq_line (t x1 x2 v1 v2 : ℚ) (h : x1 ≠ x2) :
    Linear t x1 x2 v1 v2 = v1 + (v2 - v1) * (t - x1) / (x2 - x1) := by
  have h1 : x1 - x2 ≠ 0 := sub_ne_zero.mpr h
  have h2 : x2 - x1 ≠ 0 := sub_ne_zero.mpr (Ne.symm h)
  unfold Linear
  rw [if_neg h]
  field_simp
  ring

/-- The line through two points does not depend on the order in which they are given. -/
theorem Linear_swap (t x1 x2 v1 v2 : ℚ) (h : x1 ≠ x2) :
    Linear t x2 x1 v2 v1 = Linear t x1 x2 v1 v2 := by
  have h1 : x1 - x2 ≠ 0 := sub_ne_zero.mpr h
  have h2 : x2 - x1 ≠ 0 := sub_ne_zero.mpr (Ne.symm h)
  unfold Linear
  rw [if_neg h, if_neg (Ne.symm h)]
  field_simp
  ring

theorem Linear_degenerate (t x v1 v2 : ℚ) : Linear t x x v1 v2 = v1 := by
  simp [Linear]

/-- The path of `Linear2` after a successful search. -/
theorem Linear2_eq (t : ℚ) (xs vs : List ℚ) (hlen : xs.length = vs.length)
    (higherXid lowerXid : Int)
    (hs : SearchNearestId t xs = some (higherXid, lowerXid, none))
    (x1 x2 v1 v2 : ℚ) (hx1 : goIndex xs lowerXid = some x1)
    (hx2 : goIndex xs higherXid = some x2) (hv1 : goIndex vs lowerXid = some v1)
    (hv2 : goIndex vs higherXid = some v2) :
    Linear2 t xs vs = some (Linear t x1 x2 v1 v2, none) := by
  unfold Linear2
  rw [if_neg (by simpa using hlen), hs]
  simp [hx1, hx2, hv1, hv2]

/-- C1: for an ascending sample sequence `xs`, a value sequence `vs` of the same length and a
target `t` with `xs[i] < t < xs[i+1]`, `Linear2 t xs vs` returns no error and the value at
`t` of the straight line through `(xs[i], vs[i])` and `(xs[i+1], vs[i+1])`. -/
theorem Linear2_interior (xs vs : List ℚ) (hasc : Ascending xs)
    (hlen : xs.length = vs.length) (i : Nat) (t a b va vb : ℚ)
    (ha : xs[i]? = some a) (hb : xs[i + 1]? = some b)
    (hva : vs[i]? = some va) (hvb : vs[i + 1]? = some vb)
    (h1 : a < t) (h2 : t < b) :
    Linear2 t xs vs = some (va + (vb - va) * (t - a) / (b - a), none) := by
  have hs := SearchNearestId_interior t xs hasc i a b ha hb h1 h2
  have hab : a ≠ b := ne_of_lt (lt_trans h1 h2)
  rw [Linear2_eq t xs vs hlen _ _ hs b a vb va
    (by rw [goIndex_natCast_succ, hb]) (by rw [goIndex_natCast, ha])
    (by rw [goIndex_natCast_succ, hvb]) (by rw [goIndex_natCast, hva]),
    Linear_swap t a b va vb hab, Linear_eq_line t a b va vb hab]

/-- C1, the example of the specification: `Linear2(2.5, [1,2,3,4,5], [10,20,30,40,50])`
returns 25. -/
theorem Linear2_interior_witness :
    Linear2 (5 / 2) [1, 2, 3, 4, 5] [10, 20, 30, 40, 50] = some (25, none) :=
  (Linear2_interior [1, 2, 3, 4, 5] [10, 20, 30, 40, 50] (by norm_num [Ascending]) rfl 1
    (5 / 2) 2 3 20 30 rfl rfl rfl rfl (by norm_num) (by norm_num)).trans (by norm_num)

/-- In a strictly ascending sequence the search for one of its elements returns the index of
that element, twice. -/
theorem SearchNearestId_sample {α : Type} [LinearOrder α] (arr : List α)
    (hstrict : StrictlyAscending arr) (i : Nat) (x : α) (hx : arr[i]? = some x) :
    SearchNearestId x arr = some ((i : Int), (i : Int), none) := by
  have hilen : i < arr.length := (List.getElem?_eq_some.mp hx).1
  have hl : arr[arr.length - 1]? = some arr[arr.length - 1] :=
    List.getElem?_eq_getElem (by omega)
  have hfirst : ∀ j, j < i → arr[j]? ≠ some x := by
    intro j hj hjx
    exact absurd (strictlyAscending_lt hstrict hj hjx hx) (lt_irrefl _)
  rw [SearchNearestId_exact x arr hstrict.ascending i hx hfirst _ hl]
  by_cases h : arr[arr.length - 1] = x
  · rw [if_pos h]
    have hieq : i = arr.length - 1 := by
      by_contra hne
      have hlt : i < arr.length - 1 := by omega
      have := strictlyAscending_lt hstrict hlt hx hl
      rw [h] at this
      exact lt_irrefl _ this
    have hc : (arr.length : Int) - 1 = (i : Int) := by omega
    rw [hc]
  · rw [if_neg h]

/-- C2: for a strictly ascending, non-empty sample sequence `xs`, a value sequence `vs` of
the same length and an index `i`, `Linear2 xs[i] xs vs` returns no error and exactly
`vs[i]`. -/
theorem Linear2_at_sample (xs vs : List ℚ) (hstrict : StrictlyAscending xs) (_hne : xs ≠ [])
    (hlen : xs.length = vs.length) (i : Nat) (x v : ℚ)
    (hx : xs[i]? = some x) (hv : vs[i]? = some v) :
    Linear2 x xs vs = some (v, none) := by
  have hs := SearchNearestId_sample xs hstrict i x hx
  rw [Linear2_eq x xs vs hlen _ _ hs x x v v
    (by rw [goIndex_natCast, hx]) (by rw [goIndex_natCast, hx])
    (by rw [goIndex_natCast, hv]) (by rw [goIndex_natCast, hv]), Linear_degenerate]

/-- C2 at the last sample of `[1,2,3,4,5]`, which only the check after the loop finds. -/
theorem Linear2_at_sample_witness :
    Linear2 5 [1, 2, 3, 4, 5] [10, 20, 30, 40, 50] = some (50, none) :=
  Linear2_at_sample [1, 2, 3, 4, 5] [10, 20, 30, 40, 50] (by norm_num [StrictlyAscending])
    (by simp) rfl 4 5 50 rfl rfl

/-- C3: for an ascending sequence `arr` of at least 2 elements and a target with
`arr[0] ≤ target ≤ arr[last]`, `SearchNearestId` returns no error and indices
`(lower, higher)` with `lower ≤ higher ≤ lower + 1`, `higher < len(arr)` and
`arr[lower] ≤ target ≤ arr[higher]`, where `lower = higher` only when
`arr[lower] = target`. The proof does not use the order of the elements. -/
theorem SearchNearestId_brackets {α : Type} [LinearOrder α] (val : α) (arr : List α)
    (_hasc : Ascending arr) (_hlen : 2 ≤ arr.length) (first last : α)
    (hfirst : arr[0]? = some first) (hlast : arr[arr.length - 1]? = some last)
    (h1 : first ≤ val) (h2 : val ≤ last) :
    ∃ lower higher : Nat,
      SearchNearestId val arr = some ((lower : Int), (higher : Int), none) ∧
      lower ≤ higher ∧ higher ≤ lower + 1 ∧ higher < arr.length ∧
      ∃ a b, arr[lower]? = some a ∧ arr[higher]? = some b ∧ a ≤ val ∧ val ≤ b ∧
        (lower = higher → a = val) :=
  SearchNearestId_in_range val arr first last hfirst hlast h1 h2

/-- C3 at `SearchNearestId(7/2, [1,2,3,4,5])`. -/
theorem SearchNearestId_brackets_witness :
    ∃ lower higher : Nat,
      SearchNearestId (7 / 2 : ℚ) [1, 2, 3, 4, 5] = some ((lower : Int), (higher : Int), none) ∧
      lower ≤ higher ∧ higher ≤ lower + 1 ∧ higher < [(1 : ℚ), 2, 3, 4, 5].length ∧
      ∃ a b, [(1 : ℚ), 2, 3, 4, 5][lower]? = some a ∧ [(1 : ℚ), 2, 3, 4, 5][higher]? = some b ∧
        a ≤ 7 / 2 ∧ 7 / 2 ≤ b ∧ (lower = higher → a = 7 / 2) :=
  SearchNearestId_brackets (7 / 2 : ℚ) [1, 2, 3, 4, 5] (by norm_num [Ascending])
    (by simp) 1 5 rfl rfl (by norm_num) (by norm_num)

/-- C4: for an ascending sequence `arr` of at least 2 elements and a target smaller than
`arr[0]` or larger than `arr[last]`, `SearchNearestId` fails with the "out of range" error
and returns the index pair `(0, 0)`. -/
theorem SearchNearestId_out_of_range {α : Type} [LinearOrder α] (val : α) (arr : List α)
    (hasc : Ascending arr) (_hlen : 2 ≤ arr.length) (first last : α)
    (hfirst : arr[0]? = some first) (hlast : arr[arr.length - 1]? = some last)
    (h : val < first ∨ last < val) :
    SearchNearestId val arr = some (0, 0, some "out of range") :=
  SearchNearestId_outside val arr hasc first last hfirst hlast h

/-- C4, the example of the specification: `SearchNearestId(0, [1,2,3,4,5])`. -/
theorem SearchNearestId_out_of_range_witness :
    SearchNearestId (0 : ℚ) [1, 2, 3, 4, 5] = some (0, 0, some "out of range") :=
  SearchNearestId_out_of_range (0 : ℚ) [1, 2, 3, 4, 5] (by norm_num [Ascending]) (by simp)
    1 5 rfl rfl (Or.inl (by norm_num))

/-- C5 as stated fails on `SearchNearestId(3, [1,3,3])`: the sequence is ascending, has
at least 2 elements, and index 1 is the first that holds the target, but the check after
the loop replaces the hit `(1, 1)` of the scan by `(2, 2)`. -/
theorem SearchNearestId_first_hit_counterexample :
    Ascending [(1 : ℚ), 3, 3] ∧ 2 ≤ [(1 : ℚ), 3, 3].length ∧
      [(1 : ℚ), 3, 3][1]? = some 3 ∧ (∀ j, j < 1 → [(1 : ℚ), 3, 3][j]? ≠ some 3) ∧
      SearchNearestId.loop (3 : ℚ) [1, 3, 3] 0 = some (1, 1, none) ∧
      SearchNearestId (3 : ℚ) [1, 3, 3] = some (2, 2, none) ∧
      SearchNearestId (3 : ℚ) [1, 3, 3] ≠ some (1, 1, none) := by
  have hloop : SearchNearestId.loop (3 : ℚ) [1, 3, 3] 0 = some (1, 1, none) := by
    rw [SearchNearestId.loop_step 3 [1, 3, 3] 0 1 3 rfl rfl,
      SearchNearestId.loop_step 3 [1, 3, 3] 1 3 3 rfl rfl]
    norm_num
  have hres : SearchNearestId (3 : ℚ) [1, 3, 3] = some (2, 2, none) := by
    rw [SearchNearestId_eq 3 [1, 3, 3] _ 3 hloop rfl]
    norm_num
  refine ⟨by norm_num [Ascending], by simp, rfl, ?_, hloop, hres, ?_⟩
  · intro j hj
    have hj0 : j = 0 := by omega
    subst hj0
    norm_num
  · rw [hres]
    simp

/-- C5, amended: for an ascending sequence of at least 2 elements and a target equal to one
of its elements, `i` being the first index that holds the target, `SearchNearestId` returns
no error and the pair `(last, last)` when the last element equals the target, and the pair
`(i, i)` otherwise. -/
theorem SearchNearestId_exact_hit {α : Type} [LinearOrder α] (val : α) (arr : List α)
    (hasc : Ascending arr) (_hlen : 2 ≤ arr.length) (i : Nat) (hi : arr[i]? = some val)
    (hfirst : ∀ j, j < i → arr[j]? ≠ some val) (last : α)
    (hlast : arr[arr.length - 1]? = some last) :
    SearchNearestId val arr =
      if last = val then some ((arr.length : Int) - 1, (arr.length : Int) - 1, none)
      else some ((i : Int), (i : Int), none) :=
  SearchNearestId_exact val arr hasc i hi hfirst last hlast

/-- C5, the example of the specification: `SearchNearestId(3, [1,2,3,4,5]) = (2, 2)`. -/
theorem SearchNearestId_exact_hit_witness :
    SearchNearestId (3 : ℚ) [1, 2, 3, 4, 5] = some (2, 2, none) :=
  (SearchNearestId_exact_hit (3 : ℚ) [1, 2, 3, 4, 5] (by norm_num [Ascending]) (by simp) 2 rfl
    (by
      intro j hj
      interval_cases j <;> norm_num)
    5 rfl).trans (by norm_num)

/-- C6: for `x1 ≠ x2`, in exact arithmetic, `Linear x1 x1 x2 v1 v2 = v1` and
`Linear x2 x1 x2 v1 v2 = v2`. -/
theorem Linear_endpoints (x1 x2 v1 v2 : ℚ) (h : x1 ≠ x2) :
    Linear x1 x1 x2 v1 v2 = v1 ∧ Linear x2 x1 x2 v1 v2 = v2 := by
  have h2 : x2 - x1 ≠ 0 := sub_ne_zero.mpr (Ne.symm h)
  constructor
  · rw [Linear_eq_line _ _ _ _ _ h]
    simp
  · rw [Linear_eq_line _ _ _ _ _ h]
    field_simp

/-- C6 at the anchors `1, 3` with values `10, 20`. -/
theorem Linear_endpoints_witness :
    Linear 1 1 3 10 20 = 10 ∧ Linear 3 1 3 10 20 = 20 :=
  Linear_endpoints 1 3 10 20 (by norm_num)

/-! ### `HalfLengthValueSearcher` -/

/-- A loop that stops within `fuel` iterations stops in a state reached by finitely many
executions of the loop body, and the loop guard fails there. -/
theorem HalfLengthValueSearcher.loop_result (f : ℚ → ℚ) (TargetY Accuracy : ℚ) :
    ∀ (fuel : Nat) (s s1 : Bracket),
      HalfLengthValueSearcher.loop f TargetY Accuracy fuel s = some s1 →
      ∃ n, n ≤ fuel ∧ s1 = (HalfLengthValueSearcher.step f TargetY)^[n] s ∧
        ¬ (|s1.y_higher - s1.y_lower| > Accuracy) := by
  intro fuel
  induction fuel with
  | zero =>
    intro s s1 h
    unfold HalfLengthValueSearcher.loop at h
    by_cases hg : |s.y_higher - s.y_lower| > Accuracy
    · simp [hg] at h
    · rw [if_neg hg] at h
      cases h
      exact ⟨0, le_refl 0, rfl, hg⟩
  | succ k ih =>
    intro s s1 h
    unfold HalfLengthValueSearcher.loop at h
    by_cases hg : |s.y_higher - s.y_lower| > Accuracy
    · rw [if_pos hg] at h
      obtain ⟨n, hn, hs1, hstop⟩ := ih _ _ h
      exact ⟨n + 1, by omega, by rw [Function.iterate_succ_apply]; exact hs1, hstop⟩
    · rw [if_neg hg] at h
      cases h
      exact ⟨0, Nat.zero_le _, rfl, hg⟩

/-- More fuel does not change the result of a loop that has stopped. -/
theorem HalfLengthValueSearcher.loop_fuel_mono (f : ℚ → ℚ) (TargetY Accuracy : ℚ) :
    ∀ (fuel extra : Nat) (s s1 : Bracket),
      HalfLengthValueSearcher.loop f TargetY Accuracy fuel s = some s1 →
      HalfLengthValueSearcher.loop f TargetY Accuracy (fuel + extra) s = some s1 := by
  intro fuel
  induction fuel with
  | zero =>
    intro extra s s1 h
    unfold HalfLengthValueSearcher.loop at h
    by_cases hg : |s.y_higher - s.y_lower| > Accuracy
    · simp [hg] at h
    · rw [if_neg hg] at h
      unfold HalfLengthValueSearcher.loop
      rw [if_neg hg]
      exact h
  | succ k ih =>
    intro extra s s1 h
    unfold HalfLengthValueSearcher.loop at h
    by_cases hg : |s.y_higher - s.y_lower| > Accuracy
    · rw [if_pos hg] at h
      have h2 := ih extra _ _ h
      have hk : k + 1 + extra = (k + extra) + 1 := by omega
      rw [hk]
      unfold HalfLengthValueSearcher.loop
      rw [if_pos hg]
      exact h2
    · rw [if_neg hg] at h
      unfold HalfLengthValueSearcher.loop
      rw [if_neg hg]
      exact h

/-- A result obtained with some fuel is the result for every fuel that suffices. -/
theorem HalfLengthValueSearcher_fuel_unique (f : ℚ → ℚ) (Xmin Xmax TargetY Accuracy : ℚ)
    (n m : Nat) (r1 r2 : ℚ × GoError)
    (h1 : HalfLengthValueSearcher n f Xmin Xmax TargetY Accuracy = some r1)
    (h2 : HalfLengthValueSearcher m f Xmin Xmax TargetY Accuracy = some r2) : r1 = r2 := by
  unfold HalfLengthValueSearcher at h1 h2
  simp only at h1 h2
  split_ifs at h1 h2 with hc
  · rw [← Option.some.inj h1, ← Option.some.inj h2]
  · cases hn : HalfLengthValueSearcher.loop f TargetY Accuracy n
        (HalfLengthValueSearcher.init f Xmin Xmax) with
    | none => rw [hn] at h1; simp at h1
    | some s1 =>
      cases hm : HalfLengthValueSearcher.loop f TargetY Accuracy m
          (HalfLengthValueSearcher.init f Xmin Xmax) with
      | none => rw [hm] at h2; simp at h2
      | some s2 =>
        have e1 := HalfLengthValueSearcher.loop_fuel_mono f TargetY Accuracy n m _ _ hn
        have e2 := HalfLengthValueSearcher.loop_fuel_mono f TargetY Accuracy m n _ _ hm
        rw [Nat.add_comm] at e2
        rw [e1] at e2
        have hs : s1 = s2 := Option.some.inj e2
        rw [hn] at h1
        rw [hm] at h2
        simp only [Option.some.injEq] at h1 h2
        rw [← h1, ← h2, hs]

theorem HalfLengthValueSearcher.inv_init (f : ℚ → ℚ) (Xmin Xmax TargetY : ℚ)
    (hX : Xmin ≤ Xmax) (hlo : f Xmin ≤ TargetY) (hhi : TargetY ≤ f Xmax) :
    HalfLengthValueSearcher.Inv f Xmin Xmax TargetY
      (HalfLengthValueSearcher.init f Xmin Xmax) :=
  ⟨le_refl _, hX, le_refl _, rfl, rfl, hlo, hhi⟩

theorem HalfLengthValueSearcher.inv_step (f : ℚ → ℚ) (Xmin Xmax TargetY : ℚ) (s : Bracket)
    (h : HalfLengthValueSearcher.Inv f Xmin Xmax TargetY s) :
    HalfLengthValueSearcher.Inv f Xmin Xmax TargetY
      (HalfLengthValueSearcher.step f TargetY s) := by
  obtain ⟨h1, h2, h3, h4, h5, h6, h7⟩ := h
  unfold HalfLengthValueSearcher.step
  simp only
  split_ifs with hc
  · exact ⟨h1, by simp only; linarith, by simp only; linarith, h4, rfl, h6, le_of_lt hc⟩
  · exact ⟨by simp only; linarith, by simp only; linarith, h3, rfl, h5, le_of_not_lt hc, h7⟩

theorem HalfLengthValueSearcher.inv_iterate (f : ℚ → ℚ) (Xmin Xmax TargetY : ℚ)
    (hX : Xmin ≤ Xmax) (hlo : f Xmin ≤ TargetY) (hhi : TargetY ≤ f Xmax) (n : Nat) :
    HalfLengthValueSearcher.Inv f Xmin Xmax TargetY
      ((HalfLengthValueSearcher.step f TargetY)^[n]
        (HalfLengthValueSearcher.init f Xmin Xmax)) := by
  induction n with
  | zero => exact HalfLengthValueSearcher.inv_init f Xmin Xmax TargetY hX hlo hhi
  | succ k ih =>
    rw [Function.iterate_succ_apply']
    exact HalfLengthValueSearcher.inv_step f Xmin Xmax TargetY _ ih

/-- One unfolding of the bounded loop when the guard holds. -/
theorem HalfLengthValueSearcher.loop_continue (f : ℚ → ℚ) (TargetY Accuracy : ℚ) (n : Nat)
    (s : Bracket) (hg : |s.y_higher - s.y_lower| > Accuracy) :
    HalfLengthValueSearcher.loop f TargetY Accuracy (n + 1) s =
      HalfLengthValueSearcher.loop f TargetY Accuracy n
        (HalfLengthValueSearcher.step f TargetY s) := by
  rw [HalfLengthValueSearcher.loop, if_pos hg]

/-- The bounded loop stops at once when the guard fails. -/
theorem HalfLengthValueSearcher.loop_stop (f : ℚ → ℚ) (TargetY Accuracy : ℚ) (n : Nat)
    (s : Bracket) (hg : ¬ |s.y_higher - s.y_lower| > Accuracy) :
    HalfLengthValueSearcher.loop f TargetY Accuracy n s = some s := by
  unfold HalfLengthValueSearcher.loop
  rw [if_neg hg]

/-- The run of the specification's example: `f(x) = x` on `[0, 10]` with target 5 and
accuracy 0.01 stops after 10 iterations. -/
theorem HalfLengthValueSearcher_identity_run :
    HalfLengthValueSearcher 10 (fun x => x) 0 10 5 (1 / 100) = some (5125 / 1024, none) := by
  simp [HalfLengthValueSearcher, HalfLengthValueSearcher.init, HalfLengthValueSearcher.loop,
    HalfLengthValueSearcher.step]
  norm_num [abs_lt, lt_abs]

/-- C7: for a non-decreasing `f`, bounds `Xmin ≤ Xmax` with `f Xmin ≤ TargetY ≤ f Xmax` and
`Accuracy ≥ 0`: whenever the loop of `HalfLengthValueSearcher` stops (with whatever number
of iterations), the call returns no error and an `x` with `Xmin ≤ x ≤ Xmax` and
`|f x - TargetY| ≤ Accuracy`; and after any number of executions of the loop body the
stored outputs satisfy `y_lower ≤ TargetY ≤ y_higher`, `y_lower = f x_lower` and
`y_higher = f x_higher`. -/
theorem HalfLengthValueSearcher_correct (f : ℚ → ℚ) (Xmin Xmax TargetY Accuracy : ℚ)
    (hmono : Monotone f) (hX : Xmin ≤ Xmax) (hlo : f Xmin ≤ TargetY)
    (hhi : TargetY ≤ f Xmax) (_hacc : 0 ≤ Accuracy) :
    (∀ (fuel : Nat) (r : ℚ × GoError),
      HalfLengthValueSearcher fuel f Xmin Xmax TargetY Accuracy = some r →
      ∃ x, r = (x, none) ∧ Xmin ≤ x ∧ x ≤ Xmax ∧ |f x - TargetY| ≤ Accuracy) ∧
    (∀ n : Nat,
      ((HalfLengthValueSearcher.step f TargetY)^[n]
          (HalfLengthValueSearcher.init f Xmin Xmax)).y_lower ≤ TargetY ∧
      TargetY ≤ ((HalfLengthValueSearcher.step f TargetY)^[n]
          (HalfLengthValueSearcher.init f Xmin Xmax)).y_higher ∧
      ((HalfLengthValueSearcher.step f TargetY)^[n]
          (HalfLengthValueSearcher.init f Xmin Xmax)).y_lower =
        f ((HalfLengthValueSearcher.step f TargetY)^[n]
          (HalfLengthValueSearcher.init f Xmin Xmax)).x_lower ∧
      ((HalfLengthValueSearcher.step f TargetY)^[n]
          (HalfLengthValueSearcher.init f Xmin Xmax)).y_higher =
        f ((HalfLengthValueSearcher.step f TargetY)^[n]
          (HalfLengthValueSearcher.init f Xmin Xmax)).x_higher) := by
  constructor
  · intro fuel r hr
    unfold HalfLengthValueSearcher at hr
    simp only at hr
    have hguard : ¬ ((TargetY > f Xmax ∧ TargetY > f Xmin) ∨
        (TargetY < f Xmax ∧ TargetY < f Xmin)) := by
      rintro (⟨h, _⟩ | ⟨_, h⟩)
      · exact absurd h (not_lt_of_le hhi)
      · exact absurd h (not_lt_of_le hlo)
    rw [if_neg hguard] at hr
    cases hl : HalfLengthValueSearcher.loop f TargetY Accuracy fuel
        (HalfLengthValueSearcher.init f Xmin Xmax) with
    | none => rw [hl] at hr; simp at hr
    | some s =>
      rw [hl] at hr
      simp only [Option.some.injEq] at hr
      obtain ⟨n, _, hs, hstop⟩ := HalfLengthValueSearcher.loop_result f TargetY Accuracy _ _ _ hl
      have hinv := HalfLengthValueSearcher.inv_iterate f Xmin Xmax TargetY hX hlo hhi n
      rw [← hs] at hinv
      obtain ⟨h1, h2, h3, h4, h5, h6, h7⟩ := hinv
      have hxl : s.x_lower ≤ (s.x_higher + s.x_lower) / 2 := by linarith
      have hxh : (s.x_higher + s.x_lower) / 2 ≤ s.x_higher := by linarith
      have hfl := hmono hxl
      have hfh := hmono hxh
      rw [← h4] at hfl
      rw [← h5] at hfh
      have hd : s.y_higher - s.y_lower ≤ Accuracy := by
        have := le_of_not_lt hstop
        exact le_trans (le_abs_self _) this
      refine ⟨(s.x_higher + s.x_lower) / 2, hr.symm, by linarith, by linarith, ?_⟩
      rw [abs_le]
      constructor <;> linarith
  · intro n
    obtain ⟨_, _, _, h4, h5, h6, h7⟩ :=
      HalfLengthValueSearcher.inv_iterate f Xmin Xmax TargetY hX hlo hhi n
    exact ⟨h6, h7, h4, h5⟩

/-- C7, the example of the specification: `f(x) = x` on `[0, 10]` with target 5 and accuracy
0.01; the loop stops after 10 iterations with a result within 0.01 of the target. -/
theorem HalfLengthValueSearcher_correct_witness :
    ∃ x, HalfLengthValueSearcher 10 (fun x => x) 0 10 5 (1 / 100) = some (x, none) ∧
      (0 : ℚ) ≤ x ∧ x ≤ 10 ∧ |(fun x : ℚ => x) x - 5| ≤ 1 / 100 := by
  obtain ⟨x, hx, h⟩ := (HalfLengthValueSearcher_correct (fun x => x) 0 10 5 (1 / 100)
    (fun _ _ h => h) (by norm_num) (by norm_num) (by norm_num) (by norm_num)).1 10
    (5125 / 1024, none) HalfLengthValueSearcher_identity_run
  exact ⟨x, by rw [HalfLengthValueSearcher_identity_run, hx], h⟩

/-- C8, the runs of the claim's two examples. With `f(x) = -x`, bounds `(0, 10)` and target
`-5` the outputs at the bounds straddle the target and no error is returned, but every
midpoint replaces the `lower` side and the result is `10235/1024`, where `f` is about
`-9.995`. With `f(x) = x` and bounds `(10, 0)`, target 5, the result is `5/1024`. Both are
further than the accuracy 0.01 from the target, whatever the fuel. -/
theorem HalfLengthValueSearcher_reversed_runs :
    (HalfLengthValueSearcher 10 (fun x => -x) 0 10 (-5) (1 / 100)
        = some (10235 / 1024, none) ∧
      (∀ (fuel : Nat) (r : ℚ × GoError),
        HalfLengthValueSearcher fuel (fun x => -x) 0 10 (-5) (1 / 100) = some r →
        r = (10235 / 1024, none)) ∧
      ¬ (|(fun x : ℚ => -x) (10235 / 1024) - (-5)| ≤ 1 / 100)) ∧
    (HalfLengthValueSearcher 10 (fun x => x) 10 0 5 (1 / 100) = some (5 / 1024, none) ∧
      (∀ (fuel : Nat) (r : ℚ × GoError),
        HalfLengthValueSearcher fuel (fun x => x) 10 0 5 (1 / 100) = some r →
        r = (5 / 1024, none)) ∧
      ¬ (|(fun x : ℚ => x) (5 / 1024) - 5| ≤ 1 / 100)) := by
  have h1 : HalfLengthValueSearcher 10 (fun x => -x) 0 10 (-5) (1 / 100)
      = some (10235 / 1024, none) := by
    simp [HalfLengthValueSearcher, HalfLengthValueSearcher.init,
      HalfLengthValueSearcher.loop, HalfLengthValueSearcher.step]
    norm_num [abs_lt, lt_abs]
  have h2 : HalfLengthValueSearcher 10 (fun x => x) 10 0 5 (1 / 100)
      = some (5 / 1024, none) := by
    simp [HalfLengthValueSearcher, HalfLengthValueSearcher.init,
      HalfLengthValueSearcher.loop, HalfLengthValueSearcher.step]
    norm_num [abs_lt, lt_abs]
  refine ⟨⟨h1, fun fuel r hr => ?_, ?_⟩, ⟨h2, fun fuel r hr => ?_, ?_⟩⟩
  · exact HalfLengthValueSearcher_fuel_unique _ _ _ _ _ _ _ _ _ hr h1
  · norm_num [abs_le]
  · exact HalfLengthValueSearcher_fuel_unique _ _ _ _ _ _ _ _ _ hr h2
  · norm_num [abs_le]

/-- C9: `HalfLengthValueSearcher` returns the "out of range" error (with result 0) if and
only if `TargetY` is strictly greater than both `f Xmin` and `f Xmax` or strictly less than
both. The error does not depend on the number of loop iterations allowed (it is returned
with none at all), and no other error is ever returned. -/
theorem HalfLengthValueSearcher_error_iff (fuel : Nat) (f : ℚ → ℚ)
    (Xmin Xmax TargetY Accuracy : ℚ) :
    (HalfLengthValueSearcher fuel f Xmin Xmax TargetY Accuracy = some (0, some "out of range")
      ↔ ((TargetY > f Xmax ∧ TargetY > f Xmin) ∨ (TargetY < f Xmax ∧ TargetY < f Xmin))) ∧
    (HalfLengthValueSearcher 0 f Xmin Xmax TargetY Accuracy = some (0, some "out of range")
      ↔ ((TargetY > f Xmax ∧ TargetY > f Xmin) ∨ (TargetY < f Xmax ∧ TargetY < f Xmin))) ∧
    (∀ r : ℚ × GoError, HalfLengthValueSearcher fuel f Xmin Xmax TargetY Accuracy = some r →
      r.2 ≠ none → r = (0, some "out of range")) := by
  have key : ∀ n : Nat,
      (HalfLengthValueSearcher n f Xmin Xmax TargetY Accuracy = some (0, some "out of range")
      ↔ ((TargetY > f Xmax ∧ TargetY > f Xmin) ∨ (TargetY < f Xmax ∧ TargetY < f Xmin))) := by
    intro n
    unfold HalfLengthValueSearcher
    simp only
    constructor
    · intro h
      by_contra hc
      rw [if_neg hc] at h
      cases hl : HalfLengthValueSearcher.loop f TargetY Accuracy n
          (HalfLengthValueSearcher.init f Xmin Xmax) with
      | none => rw [hl] at h; simp at h
      | some s => rw [hl] at h; simp at h
    · intro h
      rw [if_pos h]
  refine ⟨key fuel, key 0, ?_⟩
  intro r hr hne
  unfold HalfLengthValueSearcher at hr
  simp only at hr
  split_ifs at hr with hc
  · exact (Option.some.inj hr).symm
  · cases hl : HalfLengthValueSearcher.loop f TargetY Accuracy fuel
        (HalfLengthValueSearcher.init f Xmin Xmax) with
    | none => rw [hl] at hr; simp at hr
    | some s =>
      rw [hl] at hr
      simp only [Option.some.injEq] at hr
      rw [← hr] at hne
      exact absurd rfl hne

/-! ### `BiLinear` and `BiLinear2` -/

/-- With both pairs of anchors distinct, `BiLinear` is the standard bilinear form. -/
theorem BiLinear_eq_form (x x1 x2 y y1 y2 v11 v12 v21 v22 : ℚ) (hx : x1 ≠ x2)
    (hy : y1 ≠ y2) :
    BiLinear x x1 x2 y y1 y2 v11 v12 v21 v22 = bilinearForm x1 x2 y1 y2 v11 v12 v21 v22 x y := by
  have h1 : x1 - x2 ≠ 0 := sub_ne_zero.mpr hx
  have h2 : x2 - x1 ≠ 0 := sub_ne_zero.mpr (Ne.symm hx)
  have h3 : y1 - y2 ≠ 0 := sub_ne_zero.mpr hy
  have h4 : y2 - y1 ≠ 0 := sub_ne_zero.mpr (Ne.symm hy)
  unfold BiLinear
  rw [if_neg hx, if_neg hy, Linear_eq_line _ _ _ _ _ hx, Linear_eq_line _ _ _ _ _ hy,
    Linear_eq_line _ _ _ _ _ hy]
  unfold bilinearForm
  field_simp
  ring

/-- Giving the anchors of both axes in the opposite order, with the corner values moved
along, leaves the bilinear form unchanged. -/
theorem bilinearForm_swap (x x1 x2 y y1 y2 v11 v12 v21 v22 : ℚ) (hx : x1 ≠ x2)
    (hy : y1 ≠ y2) :
    bilinearForm x2 x1 y2 y1 v22 v21 v12 v11 x y = bilinearForm x1 x2 y1 y2 v11 v12 v21 v22 x y := by
  have h1 : x1 - x2 ≠ 0 := sub_ne_zero.mpr hx
  have h2 : x2 - x1 ≠ 0 := sub_ne_zero.mpr (Ne.symm hx)
  have h3 : y1 - y2 ≠ 0 := sub_ne_zero.mpr hy
  have h4 : y2 - y1 ≠ 0 := sub_ne_zero.mpr (Ne.symm hy)
  unfold bilinearForm
  field_simp
  ring

/-- The path of `BiLinear2` after two successful searches and two successful row checks. -/
theorem BiLinear2_eq (tx ty : ℚ) (xs ys : List ℚ) (grid : List (List ℚ))
    (hlen : xs.length = grid.length) (higherXid lowerXid higherYid lowerYid : Int)
    (hsx : SearchNearestId tx xs = some (higherXid, lowerXid, none))
    (hsy : SearchNearestId ty ys = some (higherYid, lowerYid, none))
    (rowLower rowHigher : List ℚ) (hrl : goIndex grid lowerXid = some rowLower)
    (hrh : goIndex grid higherXid = some rowHigher)
    (hll : ys.length = rowLower.length) (hlh : ys.length = rowHigher.length) :
    BiLinear2 tx ty xs ys grid =
      BiLinear2.corners tx ty xs ys grid higherXid lowerXid higherYid lowerYid := by
  unfold BiLinear2
  rw [if_neg (by simpa using hlen), hsx]
  simp only [ne_eq, not_true_eq_false, if_false]
  rw [hrh]
  simp only
  rw [if_neg (by simpa using hlh), hrl]
  simp only
  rw [if_neg (by simpa using hll), hsy]
  simp

/-- C10: for ascending sample sequences `xs` and `ys`, a grid with `len(grid) = len(xs)`
whose rows all have length `len(ys)`, and a target `(tx, ty)` with `xs[i] < tx < xs[i+1]`
and `ys[j] < ty < ys[j+1]`, `BiLinear2` returns no error and the bilinear form over that
cell with `grid[i][j]`, `grid[i][j+1]`, `grid[i+1][j]`, `grid[i+1][j+1]` attached to
`(xs[i], ys[j])`, `(xs[i], ys[j+1])`, `(xs[i+1], ys[j])`, `(xs[i+1], ys[j+1])`. -/
theorem BiLinear2_interior (xs ys : List ℚ) (grid : List (List ℚ))
    (hxasc : Ascending xs) (hyasc : Ascending ys) (hlen : grid.length = xs.length)
    (hrows : ∀ row ∈ grid, row.length = ys.length)
    (i j : Nat) (tx ty x1 x2 y1 y2 : ℚ)
    (hx1 : xs[i]? = some x1) (hx2 : xs[i + 1]? = some x2)
    (hy1 : ys[j]? = some y1) (hy2 : ys[j + 1]? = some y2)
    (htx1 : x1 < tx) (htx2 : tx < x2) (hty1 : y1 < ty) (hty2 : ty < y2)
    (row1 row2 : List ℚ) (hr1 : grid[i]? = some row1) (hr2 : grid[i + 1]? = some row2)
    (v11 v12 v21 v22 : ℚ) (hv11 : row1[j]? = some v11) (hv12 : row1[j + 1]? = some v12)
    (hv21 : row2[j]? = some v21) (hv22 : row2[j + 1]? = some v22) :
    BiLinear2 tx ty xs ys grid =
      some (bilinearForm x1 x2 y1 y2 v11 v12 v21 v22 tx ty, none) := by
  have hsx := SearchNearestId_interior tx xs hxasc i x1 x2 hx1 hx2 htx1 htx2
  have hsy := SearchNearestId_interior ty ys hyasc j y1 y2 hy1 hy2 hty1 hty2
  have hxne : x1 ≠ x2 := ne_of_lt (lt_trans htx1 htx2)
  have hyne : y1 ≠ y2 := ne_of_lt (lt_trans hty1 hty2)
  have hm1 : row1 ∈ grid := List.getElem?_mem hr1
  have hm2 : row2 ∈ grid := List.getElem?_mem hr2
  rw [BiLinear2_eq tx ty xs ys grid hlen.symm _ _ _ _ hsx hsy row2 row1
    (by rw [goIndex_natCast_succ, hr2]) (by rw [goIndex_natCast, hr1])
    (hrows row2 hm2).symm (hrows row1 hm1).symm]
  unfold BiLinear2.corners
  simp only [goIndex_natCast_succ, goIndex_natCast, hx1, hx2, hy1, hy2, hr1, hr2, hv11, hv12,
    hv21, hv22, Option.bind_eq_bind, Option.some_bind, Option.pure_def]
  rw [BiLinear_eq_form _ _ _ _ _ _ _ _ _ _ (Ne.symm hxne) (Ne.symm hyne),
    bilinearForm_swap _ _ _ _ _ _ _ _ _ _ hxne hyne]

/-- C10 at the centre of the cell `[1,2] × [10,20]` of a `3 × 2` grid: the four corner
values `1, 2, 3, 4` give `5/2`. -/
theorem BiLinear2_interior_witness :
    BiLinear2 (3 / 2) 15 [1, 2, 4] [10, 20] [[1, 2], [3, 4], [5, 7]] = some (5 / 2, none) :=
  (BiLinear2_interior [1, 2, 4] [10, 20] [[1, 2], [3, 4], [5, 7]] (by norm_num [Ascending])
    (by norm_num [Ascending]) rfl (by simp) 0 0 (3 / 2) 15 1 2 10 20 rfl rfl rfl rfl
    (by norm_num) (by norm_num) (by norm_num) (by norm_num) [1, 2] [3, 4] rfl rfl
    1 2 3 4 rfl rfl rfl rfl).trans (by norm_num [bilinearForm])

/-- C11: for strictly ascending, non-empty sample sequences `xs` and `ys`, a grid with
`len(grid) = len(xs)` whose rows all have length `len(ys)`, and indices `i`, `j`,
`BiLinear2 xs[i] ys[j] xs ys grid` returns no error and exactly `grid[i][j]`. -/
theorem BiLinear2_at_sample (xs ys : List ℚ) (grid : List (List ℚ))
    (hxs : StrictlyAscending xs) (hys : StrictlyAscending ys)
    (_hxne : xs ≠ []) (_hyne : ys ≠ []) (hlen : grid.length = xs.length)
    (hrows : ∀ row ∈ grid, row.length = ys.length) (i j : Nat) (x y : ℚ)
    (hx : xs[i]? = some x) (hy : ys[j]? = some y) (row : List ℚ)
    (hrow : grid[i]? = some row) (v : ℚ) (hv : row[j]? = some v) :
    BiLinear2 x y xs ys grid = some (v, none) := by
  have hsx := SearchNearestId_sample xs hxs i x hx
  have hsy := SearchNearestId_sample ys hys j y hy
  have hm : row ∈ grid := List.getElem?_mem hrow
  rw [BiLinear2_eq x y xs ys grid hlen.symm _ _ _ _ hsx hsy row row
    (by rw [goIndex_natCast, hrow]) (by rw [goIndex_natCast, hrow])
    (hrows row hm).symm (hrows row hm).symm]
  unfold BiLinear2.corners
  simp only [goIndex_natCast, hx, hy, hrow, hv, Option.bind_eq_bind, Option.some_bind,
    Option.pure_def]
  simp [BiLinear]

/-- C11 at the grid point `(2, 20)` of a `3 × 2` grid: the stored value 4 is returned. -/
theorem BiLinear2_at_sample_witness :
    BiLinear2 2 20 [1, 2, 4] [10, 20] [[1, 2], [3, 4], [5, 7]] = some (4, none) :=
  BiLinear2_at_sample [1, 2, 4] [10, 20] [[1, 2], [3, 4], [5, 7]]
    (by norm_num [StrictlyAscending]) (by norm_num [StrictlyAscending]) (by simp) (by simp)
    rfl (by simp) 1 1 2 20 rfl rfl [3, 4] rfl 4 rfl

/-- C12: for `x1 ≠ x2` and `y1 ≠ y2`, in exact arithmetic, `BiLinear` equals the standard
bilinear form; it returns `v11`, `v12`, `v21`, `v22` at the corners `(x1,y1)`, `(x1,y2)`,
`(x2,y1)`, `(x2,y2)`; and interpolating along `x` first and then along `y` gives the same
value as the order of the source, `y` first and then `x`. -/
theorem BiLinear_standard_form (x x1 x2 y y1 y2 v11 v12 v21 v22 : ℚ) (hx : x1 ≠ x2)
    (hy : y1 ≠ y2) :
    BiLinear x x1 x2 y y1 y2 v11 v12 v21 v22 =
        (v11 * (x2 - x) * (y2 - y) + v21 * (x - x1) * (y2 - y) + v12 * (x2 - x) * (y - y1)
          + v22 * (x - x1) * (y - y1)) / ((x2 - x1) * (y2 - y1)) ∧
      BiLinear x1 x1 x2 y1 y1 y2 v11 v12 v21 v22 = v11 ∧
      BiLinear x1 x1 x2 y2 y1 y2 v11 v12 v21 v22 = v12 ∧
      BiLinear x2 x1 x2 y1 y1 y2 v11 v12 v21 v22 = v21 ∧
      BiLinear x2 x1 x2 y2 y1 y2 v11 v12 v21 v22 = v22 ∧
      Linear y y1 y2 (Linear x x1 x2 v11 v21) (Linear x x1 x2 v12 v22) =
        BiLinear x x1 x2 y y1 y2 v11 v12 v21 v22 := by
  have h2 : x2 - x1 ≠ 0 := sub_ne_zero.mpr (Ne.symm hx)
  have h4 : y2 - y1 ≠ 0 := sub_ne_zero.mpr (Ne.symm hy)
  have hform := BiLinear_eq_form x x1 x2 y y1 y2 v11 v12 v21 v22 hx hy
  refine ⟨hform, ?_, ?_, ?_, ?_, ?_⟩
  · rw [BiLinear_eq_form _ _ _ _ _ _ _ _ _ _ hx hy]
    unfold bilinearForm
    field_simp
    ring
  · rw [BiLinear_eq_form _ _ _ _ _ _ _ _ _ _ hx hy]
    unfold bilinearForm
    field_simp
    ring
  · rw [BiLinear_eq_form _ _ _ _ _ _ _ _ _ _ hx hy]
    unfold bilinearForm
    field_simp
    ring
  · rw [BiLinear_eq_form _ _ _ _ _ _ _ _ _ _ hx hy]
    unfold bilinearForm
    field_simp
    ring
  · rw [hform, Linear_eq_line _ _ _ _ _ hy, Linear_eq_line _ _ _ _ _ hx,
      Linear_eq_line _ _ _ _ _ hx]
    unfold bilinearForm
    field_simp
    ring

/-- C12 on the cell `[0,2] × [0,4]` with corner values `1, 2, 3, 5`, at the point `(1, 1)`. -/
theorem BiLinear_standard_form_witness :
    BiLinear 1 0 2 1 0 4 1 2 3 5 = 19 / 8 ∧ BiLinear 0 0 2 0 0 4 1 2 3 5 = 1 ∧
      BiLinear 0 0 2 4 0 4 1 2 3 5 = 2 ∧ BiLinear 2 0 2 0 0 4 1 2 3 5 = 3 ∧
      BiLinear 2 0 2 4 0 4 1 2 3 5 = 5 ∧
      Linear 1 0 4 (Linear 1 0 2 1 3) (Linear 1 0 2 2 5) = BiLinear 1 0 2 1 0 4 1 2 3 5 := by
  obtain ⟨h1, h2, h3, h4, h5, h6⟩ :=
    BiLinear_standard_form 1 0 2 1 0 4 1 2 3 5 (by norm_num) (by norm_num)
  exact ⟨h1.trans (by norm_num), h2, h3, h4, h5, h6⟩

/-- C13: for sequences of different lengths `Linear2` fails with the "bad array sizes" error
and result 0, for every target. -/
theorem Linear2_bad_sizes (targetX : ℚ) (arrayOfX ValueArray : List ℚ)
    (h : arrayOfX.length ≠ ValueArray.length) :
    Linear2 targetX arrayOfX ValueArray = some (0, some "bad array sizes") := by
  unfold Linear2
  rw [if_pos h]

/-- C13, the example of the specification: lengths 5 and 4, with a target outside the
sample domain. -/
theorem Linear2_bad_sizes_witness :
    Linear2 9 [1, 2, 3, 4, 5] [10, 20, 30, 40] = some (0, some "bad array sizes") :=
  Linear2_bad_sizes 9 [1, 2, 3, 4, 5] [10, 20, 30, 40] (by simp)

/-- The path of `BiLinear2` up to the two row checks, after a successful search on the
x axis: a row of the wrong length gives the error, whatever the y axis holds. -/
theorem BiLinear2_row_check (tx ty : ℚ) (xs ys : List ℚ) (grid : List (List ℚ))
    (hlen : xs.length = grid.length) (higherXid lowerXid : Int)
    (hsx : SearchNearestId tx xs = some (higherXid, lowerXid, none))
    (rowLower rowHigher : List ℚ) (hrl : goIndex grid lowerXid = some rowLower)
    (hrh : goIndex grid higherXid = some rowHigher)
    (hbad : rowHigher.length ≠ ys.length ∨ rowLower.length ≠ ys.length) :
    BiLinear2 tx ty xs ys grid = some (0, some "bad array sizes") := by
  unfold BiLinear2
  rw [if_neg (by simpa using hlen), hsx]
  simp only [ne_eq, not_true_eq_false, if_false]
  rw [hrh]
  simp only
  by_cases h1 : ys.length = rowHigher.length
  · rw [if_neg (by simpa using h1), hrl]
    simp only
    have h2 : ys.length ≠ rowLower.length := by
      rcases hbad with h | h
      · exact absurd h1.symm h
      · exact fun e => h e.symm
    rw [if_pos h2]
  · rw [if_pos h1]

/-- C14: `BiLinear2` fails with the "bad array sizes" error and result 0 whenever
`len(ValueArray) ≠ len(arrayOfX)`; and, when the two are equal and `targetX` lies within the
ascending, non-empty `arrayOfX`, whenever the grid row at the lower or at the higher index
of the x bracket has a length different from `len(arrayOfY)`. Both hold for every
`targetY` and every content of `arrayOfY` and of the rows. -/
theorem BiLinear2_bad_sizes (targetX : ℚ) (arrayOfX arrayOfY : List ℚ)
    (ValueArray : List (List ℚ)) :
    (arrayOfX.length ≠ ValueArray.length →
      ∀ targetY, BiLinear2 targetX targetY arrayOfX arrayOfY ValueArray
        = some (0, some "bad array sizes")) ∧
    (∀ first last : ℚ, Ascending arrayOfX → arrayOfX ≠ [] →
      arrayOfX.length = ValueArray.length →
      arrayOfX[0]? = some first → arrayOfX[arrayOfX.length - 1]? = some last →
      first ≤ targetX → targetX ≤ last →
      ∃ lower higher : Nat,
        SearchNearestId targetX arrayOfX = some ((lower : Int), (higher : Int), none) ∧
        ∃ rowLower rowHigher : List ℚ,
          ValueArray[lower]? = some rowLower ∧ ValueArray[higher]? = some rowHigher ∧
          ((rowLower.length ≠ arrayOfY.length ∨ rowHigher.length ≠ arrayOfY.length) →
            ∀ targetY, BiLinear2 targetX targetY arrayOfX arrayOfY ValueArray
              = some (0, some "bad array sizes"))) := by
  constructor
  · intro h targetY
    unfold BiLinear2
    rw [if_pos h]
  · intro first last _ _ hlen hfirst hlast h1 h2
    obtain ⟨lower, higher, hs, hle, _, hhi, _⟩ :=
      SearchNearestId_in_range targetX arrayOfX first last hfirst hlast h1 h2
    have hhig : higher < ValueArray.length := by omega
    have hlow : lower < ValueArray.length := by omega
    refine ⟨lower, higher, hs, ValueArray[lower], ValueArray[higher],
      List.getElem?_eq_getElem hlow, List.getElem?_eq_getElem hhig, ?_⟩
    intro hbad targetY
    exact BiLinear2_row_check targetX targetY arrayOfX arrayOfY ValueArray hlen _ _ hs
      ValueArray[higher] ValueArray[lower]
      (by rw [goIndex_natCast, List.getElem?_eq_getElem hhig])
      (by rw [goIndex_natCast, List.getElem?_eq_getElem hlow]) hbad

/-- C14 on a grid whose second row is too short: with `targetX = 3/2` in `[1, 2]` the
x bracket is `(0, 1)`, row 1 has length 1 instead of 2, and the error is returned although
`arrayOfY` is empty, where the search on the y axis would not return. -/
theorem BiLinear2_bad_sizes_witness :
    BiLinear2 (3 / 2) 15 [1, 2] [10, 20] [[1, 2], [3]] = some (0, some "bad array sizes") ∧
      BiLinear2 (3 / 2) 15 [1, 2] [] [[1], [3]] = some (0, some "bad array sizes") ∧
      BiLinear2 (3 / 2) 15 [1, 2] [10, 20] [[1, 2]] = some (0, some "bad array sizes") := by
  have hs : SearchNearestId (3 / 2 : ℚ) [1, 2] = some (((0 : Nat) : Int), ((0 : Nat) : Int) + 1, none) :=
    SearchNearestId_interior (3 / 2 : ℚ) [1, 2] (by norm_num [Ascending]) 0 1 2 rfl rfl
      (by norm_num) (by norm_num)
  refine ⟨?_, ?_, ?_⟩
  · obtain ⟨lower, higher, hs2, rl, rh, hrl, hrh, himp⟩ :=
      (BiLinear2_bad_sizes (3 / 2) [1, 2] [10, 20] [[1, 2], [3]]).2 1 2
        (by norm_num [Ascending]) (by simp) rfl rfl rfl (by norm_num) (by norm_num)
    rw [hs] at hs2
    simp only [Option.some.injEq, Prod.mk.injEq, and_true] at hs2
    have hh : higher = 1 := by omega
    subst hh
    simp at hrh
    subst hrh
    exact himp (Or.inr (by simp)) 15
  · obtain ⟨lower, higher, hs2, rl, rh, hrl, hrh, himp⟩ :=
      (BiLinear2_bad_sizes (3 / 2) [1, 2] [] [[1], [3]]).2 1 2
        (by norm_num [Ascending]) (by simp) rfl rfl rfl (by norm_num) (by norm_num)
    rw [hs] at hs2
    simp only [Option.some.injEq, Prod.mk.injEq, and_true] at hs2
    have hh : higher = 1 := by omega
    subst hh
    simp at hrh
    subst hrh
    exact himp (Or.inr (by simp)) 15
  · exact (BiLinear2_bad_sizes (3 / 2) [1, 2] [10, 20] [[1, 2]]).1 (by simp) 15

/-! ### `ZeroParabolicApproximation` -/

theorem ZeroParabolicApproximation.den_ne_zero (x1 x2 : ℚ) (h1 : x1 ≠ 0) (h2 : x2 ≠ 0)
    (h12 : x1 ≠ x2) : x1 * (x1 - x2) * x2 ≠ 0 :=
  mul_ne_zero (mul_ne_zero h1 (sub_ne_zero.mpr h12)) h2

/-- The path of `ZeroParabolicApproximation` past the guard, in exact arithmetic: both
divisions have a nonzero divisor and the quadratic is returned. -/
theorem ZeroParabolicApproximation_eq (x1 x2 val1 val2 t : ℚ) (h1 : x1 ≠ 0) (h2 : x2 ≠ 0)
    (h12 : x1 ≠ x2) :
    ZeroParabolicApproximation x1 x2 val1 val2 t =
      some (-((-x2 * val1 + x1 * val2) / (x1 * (x1 - x2) * x2)) * t * t
        + -((x2 * x2 * val1 - x1 * x1 * val2) / (x1 * (x1 - x2) * x2)) * t, none) := by
  have hden := ZeroParabolicApproximation.den_ne_zero x1 x2 h1 h2 h12
  have hg : ¬ (x1 = 0 ∨ x2 = 0 ∨ x1 = x2) := by
    rintro (h | h | h)
    · exact h1 h
    · exact h2 h
    · exact h12 h
  unfold ZeroParabolicApproximation
  rw [if_neg hg]
  simp [checkedDiv, hden]

/-- C15: for nonzero, distinct anchors, in exact arithmetic, `ZeroParabolicApproximation`
returns no error and the value at `target_x` of a parabola `a*x^2 + b*x` through
`(x1, val1)` and `(x2, val2)`: it returns `val1` at `x1`, `val2` at `x2` and 0 at 0. -/
theorem ZeroParabolicApproximation_fit (x1 x2 val1 val2 : ℚ) (h1 : x1 ≠ 0) (h2 : x2 ≠ 0)
    (h12 : x1 ≠ x2) :
    ∃ a b : ℚ,
      (∀ t, ZeroParabolicApproximation x1 x2 val1 val2 t = some (a * t ^ 2 + b * t, none)) ∧
      a * x1 ^ 2 + b * x1 = val1 ∧ a * x2 ^ 2 + b * x2 = val2 ∧
      ZeroParabolicApproximation x1 x2 val1 val2 x1 = some (val1, none) ∧
      ZeroParabolicApproximation x1 x2 val1 val2 x2 = some (val2, none) ∧
      ZeroParabolicApproximation x1 x2 val1 val2 0 = some (0, none) := by
  have hd : x1 - x2 ≠ 0 := sub_ne_zero.mpr h12
  have e1 : -((-x2 * val1 + x1 * val2) / (x1 * (x1 - x2) * x2)) * x1 ^ 2
      + -((x2 * x2 * val1 - x1 * x1 * val2) / (x1 * (x1 - x2) * x2)) * x1 = val1 := by
    field_simp
    ring
  have e2 : -((-x2 * val1 + x1 * val2) / (x1 * (x1 - x2) * x2)) * x2 ^ 2
      + -((x2 * x2 * val1 - x1 * x1 * val2) / (x1 * (x1 - x2) * x2)) * x2 = val2 := by
    field_simp
    ring
  have hall : ∀ t, ZeroParabolicApproximation x1 x2 val1 val2 t =
      some (-((-x2 * val1 + x1 * val2) / (x1 * (x1 - x2) * x2)) * t ^ 2
        + -((x2 * x2 * val1 - x1 * x1 * val2) / (x1 * (x1 - x2) * x2)) * t, none) := by
    intro t
    rw [ZeroParabolicApproximation_eq x1 x2 val1 val2 t h1 h2 h12]
    congr 2
    ring
  refine ⟨_, _, hall, e1, e2, ?_, ?_, ?_⟩
  · rw [hall, e1]
  · rw [hall, e2]
  · rw [hall]
    simp

/-- C15, the example of the specification with `v1 = 3`, `v2 = 7`:
`ZeroParabolicApproximation(1, 2, 3, 7, 0)` returns 0. -/
theorem ZeroParabolicApproximation_fit_witness :
    ZeroParabolicApproximation 1 2 3 7 0 = some (0, none) ∧
      ZeroParabolicApproximation 1 2 3 7 1 = some (3, none) ∧
      ZeroParabolicApproximation 1 2 3 7 2 = some (7, none) := by
  obtain ⟨a, b, _, _, _, h1, h2, h0⟩ :=
    ZeroParabolicApproximation_fit 1 2 3 7 (by norm_num) (by norm_num) (by norm_num)
  exact ⟨h0, h1, h2⟩

/-- C16, the failing input `ZeroParabolicApproximation[int8](16, 32, 1, 1, 1)`: the anchors
are nonzero, distinct and representable, so the guard lets the call through; the divisor
`x1 * (x1 - x2) * x2` is computed in `int8` as `16 * (-16) = -256`, which is stored as 0,
and the division panics: no value and no error is returned. -/
theorem ZeroParabolicApproximationInt_wrap_counterexample :
    ¬ ((16 : Int) = 0 ∨ (32 : Int) = 0 ∨ (16 : Int) = 32) ∧
      IntKind.InRange ⟨true, 8⟩ 16 ∧ IntKind.InRange ⟨true, 8⟩ 32 ∧
      IntKind.InRange ⟨true, 8⟩ 1 ∧
      IntKind.wrap ⟨true, 8⟩ (IntKind.wrap ⟨true, 8⟩ (16 * IntKind.wrap ⟨true, 8⟩ (16 - 32)) * 32)
        = 0 ∧
      ZeroParabolicApproximationInt ⟨true, 8⟩ 16 32 1 1 1 = none := by
  refine ⟨by decide, by decide, by decide, by decide, by decide, by decide⟩

/-- What does hold of the guard: `ZeroParabolicApproximation` returns the error of its guard
(with result 0) if and only if `x1 = 0` or `x2 = 0` or `x1 = x2`, whatever `val1`, `val2`
and `target_x` are, in exact arithmetic and in every integer kind. In every other case it
returns a value with no error and divides by a nonzero divisor: always so in exact
arithmetic, and in an integer kind whenever the divisor `x1 * (x1 - x2) * x2`, as that kind
computes it, is not 0. -/
theorem ZeroParabolicApproximation_error_iff :
    (∀ x1 x2 val1 val2 target_x : ℚ,
      (ZeroParabolicApproximation x1 x2 val1 val2 target_x = some (0, some "divide dy zero")
        ↔ (x1 = 0 ∨ x2 = 0 ∨ x1 = x2)) ∧
      (¬ (x1 = 0 ∨ x2 = 0 ∨ x1 = x2) →
        x1 * (x1 - x2) * x2 ≠ 0 ∧
        ∃ v, ZeroParabolicApproximation x1 x2 val1 val2 target_x = some (v, none))) ∧
    (∀ (k : IntKind) (x1 x2 val1 val2 target_x : Int),
      (ZeroParabolicApproximationInt k x1 x2 val1 val2 target_x
          = some (0, some "divide dy zero")
        ↔ (x1 = 0 ∨ x2 = 0 ∨ x1 = x2)) ∧
      (¬ (x1 = 0 ∨ x2 = 0 ∨ x1 = x2) →
        k.wrap (k.wrap (x1 * k.wrap (x1 - x2)) * x2) ≠ 0 →
        ∃ v, ZeroParabolicApproximationInt k x1 x2 val1 val2 target_x = some (v, none))) := by
  constructor
  · intro x1 x2 val1 val2 target_x
    constructor
    · constructor
      · intro h
        by_contra hg
        have h1 : x1 ≠ 0 := fun e => hg (Or.inl e)
        have h2 : x2 ≠ 0 := fun e => hg (Or.inr (Or.inl e))
        have h12 : x1 ≠ x2 := fun e => hg (Or.inr (Or.inr e))
        rw [ZeroParabolicApproximation_eq x1 x2 val1 val2 target_x h1 h2 h12] at h
        simp at h
      · intro hg
        unfold ZeroParabolicApproximation
        rw [if_pos hg]
    · intro hg
      have h1 : x1 ≠ 0 := fun e => hg (Or.inl e)
      have h2 : x2 ≠ 0 := fun e => hg (Or.inr (Or.inl e))
      have h12 : x1 ≠ x2 := fun e => hg (Or.inr (Or.inr e))
      exact ⟨ZeroParabolicApproximation.den_ne_zero x1 x2 h1 h2 h12, _,
        ZeroParabolicApproximation_eq x1 x2 val1 val2 target_x h1 h2 h12⟩
  · intro k x1 x2 val1 val2 target_x
    constructor
    · constructor
      · intro h
        by_contra hg
        unfold ZeroParabolicApproximationInt at h
        rw [if_neg hg] at h
        by_cases hden : k.wrap (k.wrap (x1 * k.wrap (x1 - x2)) * x2) = 0
        · simp [IntKind.div, hden] at h
        · simp [IntKind.div, hden] at h
      · intro hg
        unfold ZeroParabolicApproximationInt
        rw [if_pos hg]
    · intro hg hden
      unfold ZeroParabolicApproximationInt
      rw [if_neg hg]
      simp [IntKind.div, hden]

/-- The guard at the specification's example `x1 = 0` and at the anchors `1, 2`. -/
theorem ZeroParabolicApproximation_error_iff_examples :
    ZeroParabolicApproximation 0 2 3 7 5 = some (0, some "divide dy zero") ∧
      (∃ v, ZeroParabolicApproximation 1 2 3 7 5 = some (v, none)) ∧
      ZeroParabolicApproximationInt ⟨true, 8⟩ 0 2 3 7 5 = some (0, some "divide dy zero") ∧
      (∃ v, ZeroParabolicApproximationInt ⟨true, 8⟩ 1 2 3 7 5 = some (v, none)) :=
  ⟨((ZeroParabolicApproximation_error_iff.1 0 2 3 7 5).1).2 (Or.inl rfl),
    ((ZeroParabolicApproximation_error_iff.1 1 2 3 7 5).2 (by norm_num)).2,
    ((ZeroParabolicApproximation_error_iff.2 ⟨true, 8⟩ 0 2 3 7 5).1).2 (Or.inl rfl),
    (ZeroParabolicApproximation_error_iff.2 ⟨true, 8⟩ 1 2 3 7 5).2 (by decide) (by decide)⟩

/-- C19, the run of `ZeroParabolicApproximation[int64](1, 2, 1, 1, 2)`: no operation
overflows; the coefficients are computed by integer division, `a = -((-1) / (-2)) = 0` and
`b = -(3 / (-2)) = 1`, and the result is 2. The parabola through `(1, 1)` and `(2, 1)` has
`a = -1/2`, `b = 3/2` and the value 1 at 2, which is what exact arithmetic returns. -/
theorem ZeroParabolicApproximationInt_integer_division :
    ZeroParabolicApproximationInt ⟨true, 64⟩ 1 2 1 1 2 = some (2, none) ∧
      ZeroParabolicApproximationInt ⟨true, 8⟩ 1 2 1 1 2 = some (2, none) ∧
      ZeroParabolicApproximation 1 2 1 1 2 = some (1, none) := by
  refine ⟨by decide, by decide, ?_⟩
  rw [ZeroParabolicApproximation_eq 1 2 1 1 2 (by norm_num) (by norm_num) (by norm_num)]
  norm_num

/-! ### `Round` -/

theorem mathRound_intCast (n : Int) : mathRound (n : ℚ) = (n : ℚ) := by
  unfold mathRound
  split_ifs with h
  · have : ⌊(n : ℚ) + 1 / 2⌋ = n := by
      rw [Int.floor_eq_iff]
      constructor <;> linarith
    rw [this]
  · have : ⌊-(n : ℚ) + 1 / 2⌋ = -n := by
      rw [Int.floor_eq_iff]
      push_cast
      constructor <;> linarith
    rw [this]
    push_cast
    ring

theorem mathRound_isInt (x : ℚ) : ∃ m : Int, mathRound x = (m : ℚ) := by
  unfold mathRound
  split_ifs
  · exact ⟨_, rfl⟩
  · exact ⟨-⌊-x + 1 / 2⌋, by push_cast; rfl⟩

/-- Rounding to a number of decimal places a value that has already been rounded to it
changes nothing. -/
theorem round_scaled_idem (k v : ℚ) (hk : k ≠ 0) :
    mathRound (mathRound (v * k) / k * k) / k = mathRound (v * k) / k := by
  obtain ⟨m, hm⟩ := mathRound_isInt (v * k)
  rw [hm, div_mul_cancel₀ _ hk, mathRound_intCast]

theorem Pow10_ne_zero (n : Int) : Pow10 n ≠ 0 :=
  zpow_ne_zero n (by norm_num)

/-- What the loop of `Round` leaves in each memory cell: a cell some pointer refers to holds
its own former value, rounded; every other cell is unchanged. -/
theorem Round.loop_apply (k : ℚ) (hk : k ≠ 0) :
    ∀ (x : List Nat) (mem : Nat → ℚ) (p : Nat),
      Round.loop k x mem p = if p ∈ x then mathRound (mem p * k) / k else mem p := by
  intro x
  induction x with
  | nil =>
    intro mem p
    simp [Round.loop]
  | cons q rest ih =>
    intro mem p
    rw [Round.loop, ih]
    by_cases hpq : p = q
    · subst hpq
      simp only [Function.update_same, List.mem_cons, true_or, if_true]
      split_ifs
      · exact round_scaled_idem k (mem p) hk
      · rfl
    · simp only [Function.update_noteq hpq, List.mem_cons, hpq, false_or]

/-- C17: in exact arithmetic, with `math.Round` rounding halves away from zero, applying
`Round` twice to the same references leaves the same values as applying it once, and each
referenced cell is updated from its own value only (to
`math.Round(x * 10^DecimalPlaces) / 10^DecimalPlaces`), the other cells being untouched. -/
theorem Round_idempotent (DecimalPlaces : Int) (x : List Nat) (mem : Nat → ℚ) :
    Round DecimalPlaces x (Round DecimalPlaces x mem) = Round DecimalPlaces x mem ∧
    (∀ p, Round DecimalPlaces x mem p =
      if p ∈ x then mathRound (mem p * Pow10 DecimalPlaces) / Pow10 DecimalPlaces
      else mem p) := by
  have hk := Pow10_ne_zero DecimalPlaces
  have happ := Round.loop_apply (Pow10 DecimalPlaces) hk x
  constructor
  · funext p
    unfold Round
    rw [happ, happ]
    split_ifs
    · exact round_scaled_idem _ _ hk
    · rfl
  · intro p
    unfold Round
    exact happ mem p

/-- C17, the example of the specification: 3.14159 rounded to 2 decimal places becomes 3.14
and stays 3.14 under a second call. -/
theorem Round_idempotent_witness :
    Round 2 [0] (fun _ => 314159 / 100000) 0 = 157 / 50 ∧
      Round 2 [0] (Round 2 [0] (fun _ => 314159 / 100000)) 0 = 157 / 50 := by
  have hfl : ⌊(314159 / 100000 : ℚ) * 100 + 1 / 2⌋ = 314 := by
    rw [Int.floor_eq_iff]
    constructor <;> norm_num
  have h1 : Round 2 [0] (fun _ => 314159 / 100000) 0 = 157 / 50 := by
    rw [(Round_idempotent 2 [0] (fun _ => 314159 / 100000)).2 0]
    have hp : Pow10 2 = 100 := by norm_num [Pow10]
    rw [hp]
    unfold mathRound
    rw [if_pos (List.mem_singleton.mpr rfl), if_pos (by norm_num), hfl]
    norm_num
  exact ⟨h1, by rw [(Round_idempotent 2 [0] (fun _ => 314159 / 100000)).1, h1]⟩

/-! ### Panics of `Linear2` -/

/-- C18, the failing input: on the empty sample sequence `SearchNearestId` skips its loop
and then reads `(*arr)[len(*arr)-1]`, that is index `-1`; the call panics, and so does
`Linear2` on a pair of empty sequences, for every target. -/
theorem Linear2_empty_panics (t : ℚ) :
    SearchNearestId.loop t ([] : List ℚ) 0 = some (0, 0, some "out of range") ∧
      goIndex ([] : List ℚ) ((([] : List ℚ).length : Int) - 1) = none ∧
      SearchNearestId t ([] : List ℚ) = none ∧ Linear2 t [] [] = none := by
  have hloop : SearchNearestId.loop t ([] : List ℚ) 0 = some (0, 0, some "out of range") :=
    SearchNearestId.loop_exit t [] 0 (by simp)
  have hs : SearchNearestId t ([] : List ℚ) = none := by
    unfold SearchNearestId
    rw [hloop]
    simp [goIndex_nil]
  refine ⟨hloop, goIndex_nil _, hs, ?_⟩
  unfold Linear2
  rw [hs]
  simp

/-- On non-empty sequences of equal length `Linear2` never panics, sorted or not: it returns
a value with no error, or 0 with the "out of range" error. -/
theorem Linear2_total_of_ne_nil (t : ℚ) (xs vs : List ℚ) (hne : xs ≠ [])
    (hlen : xs.length = vs.length) :
    (∃ v, Linear2 t xs vs = some (v, none)) ∨
      Linear2 t xs vs = some (0, some "out of range") := by
  have hpos : 0 < xs.length := List.length_pos.mpr hne
  have hl : xs[xs.length - 1]? = some xs[xs.length - 1] :=
    List.getElem?_eq_getElem (by omega)
  have hval : ∀ (lo hi : Nat), lo < xs.length → hi < xs.length →
      SearchNearestId t xs = some ((lo : Int), (hi : Int), none) →
      ∃ v, Linear2 t xs vs = some (v, none) := by
    intro lo hi hlo hhi hs
    exact ⟨_, Linear2_eq t xs vs hlen _ _ hs xs[hi] xs[lo] vs[hi] vs[lo]
      (by rw [goIndex_natCast, List.getElem?_eq_getElem hhi])
      (by rw [goIndex_natCast, List.getElem?_eq_getElem hlo])
      (by rw [goIndex_natCast, List.getElem?_eq_getElem (by omega)])
      (by rw [goIndex_natCast, List.getElem?_eq_getElem (by omega)])⟩
  have hlastcase : xs[xs.length - 1] = t → ∃ v, Linear2 t xs vs = some (v, none) := by
    intro h
    obtain ⟨r, hr⟩ := SearchNearestId.loop_isSome t xs 0
    have hs := SearchNearestId_eq t xs r _ hr hl
    rw [if_pos h, last_cast xs hpos] at hs
    exact hval _ _ (by omega) (by omega) hs
  by_cases hlast : xs[xs.length - 1] = t
  · exact Or.inl (hlastcase hlast)
  · rcases SearchNearestId.loop_spec t xs _ 0 rfl with
      ⟨hres, _⟩ | ⟨k, _, hklen, _, ⟨_, hres⟩ | ⟨_, _, hres⟩⟩
    · right
      have hs := SearchNearestId_eq t xs _ _ hres hl
      rw [if_neg hlast] at hs
      unfold Linear2
      rw [if_neg (by simpa using hlen), hs]
      simp
    · left
      have hs := SearchNearestId_eq t xs _ _ hres hl
      rw [if_neg hlast] at hs
      exact hval k (k + 1) (by omega) hklen (by rw [hs]; push_cast; rfl)
    · left
      have hs := SearchNearestId_eq t xs _ _ hres hl
      rw [if_neg hlast] at hs
      exact hval k k (by omega) (by omega) hs

/-! ### Termination of `HalfLengthValueSearcher` on the identity -/

/-- A loop whose guard fails after `n` executions of the body stops within `n` iterations. -/
theorem HalfLengthValueSearcher.loop_terminates (f : ℚ → ℚ) (TargetY Accuracy : ℚ) :
    ∀ (n : Nat) (s : Bracket),
      ¬ (|((HalfLengthValueSearcher.step f TargetY)^[n] s).y_higher
          - ((HalfLengthValueSearcher.step f TargetY)^[n] s).y_lower| > Accuracy) →
      ∃ s1, HalfLengthValueSearcher.loop f TargetY Accuracy n s = some s1 := by
  intro n
  induction n with
  | zero =>
    intro s h
    exact ⟨s, HalfLengthValueSearcher.loop_stop f TargetY Accuracy 0 s h⟩
  | succ k ih =>
    intro s h
    by_cases hg : |s.y_higher - s.y_lower| > Accuracy
    · rw [HalfLengthValueSearcher.loop_continue f TargetY Accuracy k s hg]
      rw [Function.iterate_succ_apply] at h
      exact ih _ h
    · exact ⟨s, HalfLengthValueSearcher.loop_stop f TargetY Accuracy (k + 1) s hg⟩

/-- What a returned result satisfies, for a non-decreasing function and a target between
the outputs at the ascending bounds. -/
theorem HalfLengthValueSearcher_result_bound (f : ℚ → ℚ) (Xmin Xmax TargetY Accuracy : ℚ)
    (hmono : Monotone f) (hX : Xmin ≤ Xmax) (hlo : f Xmin ≤ TargetY)
    (hhi : TargetY ≤ f Xmax) (fuel : Nat) (s : Bracket)
    (hl : HalfLengthValueSearcher.loop f TargetY Accuracy fuel
      (HalfLengthValueSearcher.init f Xmin Xmax) = some s) :
    HalfLengthValueSearcher fuel f Xmin Xmax TargetY Accuracy
        = some ((s.x_higher + s.x_lower) / 2, none) ∧
      Xmin ≤ (s.x_higher + s.x_lower) / 2 ∧ (s.x_higher + s.x_lower) / 2 ≤ Xmax ∧
      |f ((s.x_higher + s.x_lower) / 2) - TargetY| ≤ Accuracy := by
  have hguard : ¬ ((TargetY > f Xmax ∧ TargetY > f Xmin) ∨
      (TargetY < f Xmax ∧ TargetY < f Xmin)) := by
    rintro (⟨h, _⟩ | ⟨_, h⟩)
    · exact absurd h (not_lt_of_le hhi)
    · exact absurd h (not_lt_of_le hlo)
  have hres : HalfLengthValueSearcher fuel f Xmin Xmax TargetY Accuracy
      = some ((s.x_higher + s.x_lower) / 2, none) := by
    unfold HalfLengthValueSearcher
    simp only
    rw [if_neg hguard, hl]
  obtain ⟨n, _, hs, hstop⟩ := HalfLengthValueSearcher.loop_result f TargetY Accuracy _ _ _ hl
  have hinv := HalfLengthValueSearcher.inv_iterate f Xmin Xmax TargetY hX hlo hhi n
  rw [← hs] at hinv
  obtain ⟨h1, h2, h3, h4, h5, h6, h7⟩ := hinv
  have hxl : s.x_lower ≤ (s.x_higher + s.x_lower) / 2 := by linarith
  have hxh : (s.x_higher + s.x_lower) / 2 ≤ s.x_higher := by linarith
  have hfl := hmono hxl
  have hfh := hmono hxh
  rw [← h4] at hfl
  rw [← h5] at hfh
  have hd : s.y_higher - s.y_lower ≤ Accuracy :=
    le_trans (le_abs_self _) (le_of_not_lt hstop)
  refine ⟨hres, by linarith, by linarith, ?_⟩
  rw [abs_le]
  constructor <;> linarith

/-- On the identity the stored outputs are the stored bounds, and the width of the bracket
is halved by every execution of the loop body. -/
theorem HalfLengthValueSearcher.identity_width (Xmin Xmax TargetY : ℚ) (n : Nat) :
    ((HalfLengthValueSearcher.step (fun x => x) TargetY)^[n]
        (HalfLengthValueSearcher.init (fun x => x) Xmin Xmax)).y_lower =
      ((HalfLengthValueSearcher.step (fun x => x) TargetY)^[n]
        (HalfLengthValueSearcher.init (fun x => x) Xmin Xmax)).x_lower ∧
    ((HalfLengthValueSearcher.step (fun x => x) TargetY)^[n]
        (HalfLengthValueSearcher.init (fun x => x) Xmin Xmax)).y_higher =
      ((HalfLengthValueSearcher.step (fun x => x) TargetY)^[n]
        (HalfLengthValueSearcher.init (fun x => x) Xmin Xmax)).x_higher ∧
    ((HalfLengthValueSearcher.step (fun x => x) TargetY)^[n]
        (HalfLengthValueSearcher.init (fun x => x) Xmin Xmax)).x_higher -
      ((HalfLengthValueSearcher.step (fun x => x) TargetY)^[n]
        (HalfLengthValueSearcher.init (fun x => x) Xmin Xmax)).x_lower =
      (Xmax - Xmin) / 2 ^ n := by
  induction n with
  | zero => simp [HalfLengthValueSearcher.init]
  | succ k ih =>
    rw [Function.iterate_succ_apply']
    generalize (HalfLengthValueSearcher.step (fun x => x) TargetY)^[k]
      (HalfLengthValueSearcher.init (fun x => x) Xmin Xmax) = s at ih
    obtain ⟨h1, h2, h3⟩ := ih
    unfold HalfLengthValueSearcher.step
    simp only
    split_ifs
    · refine ⟨h1, rfl, ?_⟩
      simp only
      rw [pow_succ, ← div_div, ← h3]
      ring
    · refine ⟨rfl, h2, ?_⟩
      simp only
      rw [pow_succ, ← div_div, ← h3]
      ring

/-- Some power of two brings any width below a positive accuracy. -/
theorem exists_halving (w acc : ℚ) (hacc : 0 < acc) : ∃ k : Nat, w / 2 ^ k ≤ acc := by
  obtain ⟨n, hn⟩ := exists_nat_gt (w / acc)
  refine ⟨n, ?_⟩
  have h2 : (n : ℚ) < 2 ^ n := by exact_mod_cast Nat.lt_two_pow n
  have hpow : (0 : ℚ) < 2 ^ n := by positivity
  rw [div_le_iff₀ hpow]
  have h3 : w < acc * n := by
    rw [div_lt_iff₀ hacc] at hn
    linarith
  have h4 : acc * n ≤ acc * 2 ^ n := by
    apply mul_le_mul_of_nonneg_left (le_of_lt h2) (le_of_lt hacc)
  linarith

/-- C20: for the identity function in exact rational arithmetic, `Xmin ≤ TargetY ≤ Xmax`
and `Accuracy > 0`: the width `x_higher - x_lower` is `(Xmax - Xmin) / 2^n` after `n`
executions of the loop body; some `k` has `(Xmax - Xmin) / 2^k ≤ Accuracy`; and for every
such `k` the loop stops within `k` iterations and the call returns, with no error, an `x`
with `|x - TargetY| ≤ Accuracy`. -/
theorem HalfLengthValueSearcher_identity_terminates (Xmin Xmax TargetY Accuracy : ℚ)
    (h1 : Xmin ≤ TargetY) (h2 : TargetY ≤ Xmax) (hacc : 0 < Accuracy) :
    (∀ n : Nat,
      ((HalfLengthValueSearcher.step (fun x => x) TargetY)^[n]
          (HalfLengthValueSearcher.init (fun x => x) Xmin Xmax)).x_higher -
        ((HalfLengthValueSearcher.step (fun x => x) TargetY)^[n]
          (HalfLengthValueSearcher.init (fun x => x) Xmin Xmax)).x_lower =
        (Xmax - Xmin) / 2 ^ n) ∧
    (∃ k : Nat, (Xmax - Xmin) / 2 ^ k ≤ Accuracy) ∧
    (∀ k : Nat, (Xmax - Xmin) / 2 ^ k ≤ Accuracy →
      ∃ x, HalfLengthValueSearcher k (fun x => x) Xmin Xmax TargetY Accuracy = some (x, none) ∧
        |x - TargetY| ≤ Accuracy) := by
  refine ⟨fun n => (HalfLengthValueSearcher.identity_width Xmin Xmax TargetY n).2.2,
    exists_halving _ _ hacc, ?_⟩
  intro k hk
  obtain ⟨hyl, hyh, hw⟩ := HalfLengthValueSearcher.identity_width Xmin Xmax TargetY k
  have hwn : (0 : ℚ) ≤ (Xmax - Xmin) / 2 ^ k := by
    apply div_nonneg
    · linarith
    · positivity
  have hstop : ¬ (|((HalfLengthValueSearcher.step (fun x => x) TargetY)^[k]
        (HalfLengthValueSearcher.init (fun x => x) Xmin Xmax)).y_higher
      - ((HalfLengthValueSearcher.step (fun x => x) TargetY)^[k]
        (HalfLengthValueSearcher.init (fun x => x) Xmin Xmax)).y_lower| > Accuracy) := by
    rw [hyl, hyh, hw, abs_of_nonneg hwn]
    exact not_lt_of_le hk
  obtain ⟨s, hs⟩ := HalfLengthValueSearcher.loop_terminates (fun x => x) TargetY Accuracy k _ hstop
  obtain ⟨hres, _, _, hb⟩ := HalfLengthValueSearcher_result_bound (fun x => x) Xmin Xmax
    TargetY Accuracy (fun _ _ h => h) (le_trans h1 h2) h1 h2 k s hs
  exact ⟨_, hres, hb⟩

/-- C20, the example of the specification: `Xmin = 0`, `Xmax = 10`, `TargetY = 5`,
`Accuracy = 0.01`; since `10 / 2^10 ≤ 0.01` the loop stops within 10 iterations. -/
theorem HalfLengthValueSearcher_identity_terminates_witness :
    ∃ x, HalfLengthValueSearcher 10 (fun x => x) 0 10 5 (1 / 100) = some (x, none) ∧
      |x - 5| ≤ 1 / 100 :=
  (HalfLengthValueSearcher_identity_terminates 0 10 5 (1 / 100) (by norm_num) (by norm_num)
    (by norm_num)).2.2 10 (by norm_num)

end Interpolation
